import Mathlib

/-!
Shallow embedding of the assessment-attempt lifecycle and proctoring engines of
the tcs_ion repository (src/backend/assessment_service/index.js and
src/backend/proctor_service/index.js).

Numbers: JavaScript numeric values that stay rational are modelled as `ℚ`;
the one place where the code can divide by zero (the percentage computation in
the finish-attempt route) is modelled with `JsNum`, which mirrors the IEEE
special values NaN and ±Infinity produced by JavaScript division.  Timestamps
are milliseconds since the epoch, modelled as `ℕ` (`Date.getTime()`).
-/

/-- JavaScript number results that may be NaN or infinite (from division by 0). -/
inductive JsNum where
  | nan : JsNum
  | posInf : JsNum
  | negInf : JsNum
  | num : ℚ → JsNum
deriving DecidableEq

/-- JavaScript division `a / b`: 0/0 is NaN, x/0 is ±Infinity for x ≠ 0. -/
def jsDiv (a b : ℚ) : JsNum :=
  if b = 0 then
    (if a = 0 then .nan else if a > 0 then .posInf else .negInf)
  else .num (a / b)

/-- JavaScript multiplication of a possibly non-finite value by a rational. -/
def jsMul (x : JsNum) (c : ℚ) : JsNum :=
  match x with
  | .nan => .nan
  | .posInf => if c = 0 then .nan else if c > 0 then .posInf else .negInf
  | .negInf => if c = 0 then .nan else if c > 0 then .negInf else .posInf
  | .num q => .num (q * c)

/-! ## IEEE-754 binary64 model for the anomaly-score accumulator

`session.anomalyScore += severityValue` runs on JavaScript numbers, which are
IEEE-754 binary64 doubles.  A double is modelled by the rational number it
denotes; `roundDouble` is round-to-nearest, ties-to-even, at 53 significant
bits, with an unbounded exponent range (overflow and subnormals are
unreachable for this accumulator, whose values are 0 or sums of weights drawn
from [0.2, 1]). -/

/-- Round a rational to the nearest integer, ties to even. -/
def rne (x : ℚ) : ℤ :=
  if x - ⌊x⌋ < 1/2 then ⌊x⌋
  else if x - ⌊x⌋ > 1/2 then ⌊x⌋ + 1
  else if ⌊x⌋ % 2 = 0 then ⌊x⌋ else ⌊x⌋ + 1

/-- Round-to-nearest-even at 53 significant bits: the binary64 value of an
exactly computed rational in the normal range. -/
def roundDouble (q : ℚ) : ℚ :=
  if q = 0 then 0
  else if 0 < q then
    (rne (q * 2 ^ (52 - Int.log 2 q)) : ℚ) * 2 ^ (Int.log 2 q - 52)
  else
    -((rne (-q * 2 ^ (52 - Int.log 2 (-q))) : ℚ) * 2 ^ (Int.log 2 (-q) - 52))

/-- IEEE-754 binary64 addition: the exact sum, correctly rounded. -/
def dadd (a b : ℚ) : ℚ := roundDouble (a + b)

/-- The rationals that are binary64 values (53-bit significand, any
exponent). -/
def dblRepr (x : ℚ) : Prop := ∃ n e : ℤ, |n| < 2 ^ 53 ∧ x = (n : ℚ) * 2 ^ e

theorem int_log_eq {q : ℚ} {n : ℤ} (h1 : (2:ℚ) ^ n ≤ q)
    (h2 : q < (2:ℚ) ^ (n + 1)) : Int.log 2 q = n := by
  have hq : 0 < q := lt_of_lt_of_le (zpow_pos (by norm_num) n) h1
  have ha : n ≤ Int.log 2 q := by
    rw [← Int.zpow_le_iff_le_log (by norm_num) hq]
    exact_mod_cast h1
  have hb : Int.log 2 q < n + 1 := by
    rw [← Int.lt_zpow_iff_log_lt (by norm_num) hq]
    exact_mod_cast h2
  omega

theorem int_two_pow_cast (k : ℕ) :
    (((2:ℤ) ^ k : ℤ) : ℚ) = (2:ℚ) ^ ((k:ℕ) : ℤ) := by
  rw [Int.cast_pow, zpow_natCast]
  norm_num

theorem floor_le_rne (x : ℚ) : ⌊x⌋ ≤ rne x := by
  rw [rne]
  split
  · exact le_refl _
  · split
    · omega
    · split <;> omega

theorem rne_le (x : ℚ) : rne x ≤ ⌊x⌋ + 1 := by
  rw [rne]
  split
  · omega
  · split
    · omega
    · split <;> omega

theorem roundDouble_zero : roundDouble 0 = 0 := by
  rw [roundDouble, if_pos rfl]

theorem roundDouble_nonneg {q : ℚ} (h : 0 ≤ q) : 0 ≤ roundDouble q := by
  rcases eq_or_lt_of_le h with heq | hpos
  · rw [← heq, roundDouble_zero]
  · rw [roundDouble, if_neg hpos.ne', if_pos hpos]
    have hsp : 0 < q * 2 ^ (52 - Int.log 2 q) :=
      mul_pos hpos (zpow_pos (by norm_num) _)
    have h0 : (0:ℤ) ≤ ⌊q * 2 ^ (52 - Int.log 2 q)⌋ := Int.floor_nonneg.mpr hsp.le
    have h2 : (0:ℚ) ≤ (rne (q * 2 ^ (52 - Int.log 2 q)) : ℚ) := by
      exact_mod_cast le_trans h0 (floor_le_rne (q * 2 ^ (52 - Int.log 2 q)))
    exact mul_nonneg h2 (zpow_pos (by norm_num : (0:ℚ) < 2) _).le

theorem dblRepr_roundDouble {q : ℚ} (h : 0 ≤ q) : dblRepr (roundDouble q) := by
  rcases eq_or_lt_of_le h with heq | hpos
  · rw [← heq, roundDouble_zero]
    exact ⟨0, 0, by norm_num, by norm_num⟩
  · rw [roundDouble, if_neg hpos.ne', if_pos hpos]
    have hscpos : 0 < q * 2 ^ (52 - Int.log 2 q) :=
      mul_pos hpos (zpow_pos (by norm_num) _)
    have hsclt : q * 2 ^ (52 - Int.log 2 q) < 2 ^ 53 := by
      have h1 : q < (2:ℚ) ^ (Int.log 2 q + 1) := by
        exact_mod_cast Int.lt_zpow_succ_log_self (by norm_num : 1 < 2) q
      calc q * 2 ^ (52 - Int.log 2 q)
          < (2:ℚ) ^ (Int.log 2 q + 1) * 2 ^ (52 - Int.log 2 q) :=
            mul_lt_mul_of_pos_right h1 (zpow_pos (by norm_num) _)
        _ = (2:ℚ) ^ ((53:ℕ) : ℤ) := by
            rw [← zpow_add₀ (two_ne_zero)]
            congr 1
            omega
        _ = 2 ^ (53:ℕ) := zpow_natCast 2 53
    have hfl : ⌊q * 2 ^ (52 - Int.log 2 q)⌋ < 2 ^ 53 := by
      rw [Int.floor_lt]
      exact_mod_cast hsclt
    have hrb : rne (q * 2 ^ (52 - Int.log 2 q)) ≤ 2 ^ 53 :=
      le_trans (rne_le _) (by omega)
    have hrnn : 0 ≤ rne (q * 2 ^ (52 - Int.log 2 q)) :=
      le_trans (Int.floor_nonneg.mpr hscpos.le) (floor_le_rne _)
    rcases lt_or_eq_of_le hrb with hlt | he
    · exact ⟨rne (q * 2 ^ (52 - Int.log 2 q)), Int.log 2 q - 52,
        by rw [abs_of_nonneg hrnn]; exact hlt, rfl⟩
    · refine ⟨2 ^ 52, Int.log 2 q - 51, by norm_num, ?_⟩
      rw [he, int_two_pow_cast 53, int_two_pow_cast 52,
        ← zpow_add₀ (two_ne_zero), ← zpow_add₀ (two_ne_zero)]
      congr 1
      omega

theorem dadd_nonneg {a b : ℚ} (ha : 0 ≤ a) (hb : 0 ≤ b) : 0 ≤ dadd a b := by
  rw [dadd]
  exact roundDouble_nonneg (by linarith)

theorem dblRepr_dadd {a b : ℚ} (ha : 0 ≤ a) (hb : 0 ≤ b) : dblRepr (dadd a b) := by
  rw [dadd]
  exact dblRepr_roundDouble (by linarith)

/-- Rounding never loses the representable lower bound: a binary64 value `a`
is at most the correctly rounded sum `a + w` for any nonnegative `w`. -/
theorem le_dadd_of_repr {a w : ℚ} (ha : dblRepr a) (ha0 : 0 ≤ a) (hw : 0 ≤ w) :
    a ≤ dadd a w := by
  rcases eq_or_lt_of_le ha0 with heq | hapos
  · rw [← heq, dadd]
    exact roundDouble_nonneg (by linarith)
  · have hx : 0 < a + w := by linarith
    have hax : a ≤ a + w := by linarith
    rw [dadd, roundDouble, if_neg hx.ne', if_pos hx]
    have hLa : Int.log 2 a ≤ Int.log 2 (a + w) := Int.log_mono_right hapos hax
    have hsc_pos : 0 < (a + w) * 2 ^ (52 - Int.log 2 (a + w)) :=
      mul_pos hx (zpow_pos (by norm_num) _)
    have key : a ≤ (⌊(a + w) * 2 ^ (52 - Int.log 2 (a + w))⌋ : ℚ) *
        2 ^ (Int.log 2 (a + w) - 52) := by
      have hfloor_big : ((2:ℤ) ^ (52:ℕ) : ℚ) ≤
          (⌊(a + w) * 2 ^ (52 - Int.log 2 (a + w))⌋ : ℚ) := by
        have h6 : (2:ℚ) ^ Int.log 2 (a + w) ≤ a + w := by
          exact_mod_cast Int.zpow_log_le_self (by norm_num : 1 < 2) hx
        have h5 : (2:ℚ) ^ ((52:ℕ) : ℤ) ≤ (a + w) * 2 ^ (52 - Int.log 2 (a + w)) := by
          calc (2:ℚ) ^ ((52:ℕ) : ℤ)
              = (2:ℚ) ^ Int.log 2 (a + w) * 2 ^ (52 - Int.log 2 (a + w)) := by
                rw [← zpow_add₀ (two_ne_zero)]
                congr 1
                push_cast
                omega
            _ ≤ (a + w) * 2 ^ (52 - Int.log 2 (a + w)) :=
                mul_le_mul_of_nonneg_right h6 (zpow_pos (by norm_num) _).le
        have h7 : ((2:ℤ) ^ (52:ℕ)) ≤ ⌊(a + w) * 2 ^ (52 - Int.log 2 (a + w))⌋ := by
          rw [Int.le_floor]
          calc (((2:ℤ) ^ (52:ℕ) : ℤ) : ℚ) = (2:ℚ) ^ ((52:ℕ) : ℤ) :=
                int_two_pow_cast 52
            _ ≤ _ := h5
        exact_mod_cast h7
      rcases lt_or_eq_of_le hLa with hlt | heqL
      · have h1 : a < (2:ℚ) ^ (Int.log 2 a + 1) := by
          exact_mod_cast Int.lt_zpow_succ_log_self (by norm_num : 1 < 2) a
        have h2 : (2:ℚ) ^ (Int.log 2 a + 1) ≤ (2:ℚ) ^ Int.log 2 (a + w) :=
          zpow_le_zpow_right₀ (by norm_num) (by omega)
        have h3 : (2:ℚ) ^ Int.log 2 (a + w) =
            (2:ℚ) ^ ((52:ℕ) : ℤ) * 2 ^ (Int.log 2 (a + w) - 52) := by
          rw [← zpow_add₀ (two_ne_zero)]
          congr 1
          push_cast
          omega
        refine le_of_lt (lt_of_lt_of_le (lt_of_lt_of_le h1 h2) ?_)
        rw [h3]
        apply mul_le_mul_of_nonneg_right _ (zpow_pos (by norm_num : (0:ℚ) < 2) _).le
        calc (2:ℚ) ^ ((52:ℕ) : ℤ) = ((2:ℤ) ^ (52:ℕ) : ℚ) :=
              (int_two_pow_cast 52).symm
          _ ≤ _ := hfloor_big
      · obtain ⟨n, e, hn, hae⟩ := ha
        have h2e : (0:ℚ) < 2 ^ e := zpow_pos (by norm_num) _
        have hnpos : 0 < n := by
          by_contra hneg
          push_neg at hneg
          have hle : a ≤ 0 := by
            rw [hae]
            exact mul_nonpos_of_nonpos_of_nonneg (by exact_mod_cast hneg) h2e.le
          linarith
        have h2La : (2:ℚ) ^ Int.log 2 a ≤ a := by
          exact_mod_cast Int.zpow_log_le_self (by norm_num : 1 < 2) hapos
        have hne : Int.log 2 a - 52 ≤ e := by
          by_contra hc
          push_neg at hc
          have hb1 : (n:ℚ) < 2 ^ (53:ℕ) := by
            exact_mod_cast (abs_lt.mp hn).2
          have hb2 : a < (2:ℚ) ^ (53:ℕ) * 2 ^ e := by
            rw [hae]
            exact mul_lt_mul_of_pos_right hb1 h2e
          have hb3 : (2:ℚ) ^ (53:ℕ) * 2 ^ e ≤ (2:ℚ) ^ Int.log 2 a := by
            calc (2:ℚ) ^ (53:ℕ) * 2 ^ e = (2:ℚ) ^ (((53:ℕ) : ℤ) + e) := by
                  rw [zpow_add₀ (two_ne_zero), zpow_natCast]
              _ ≤ (2:ℚ) ^ Int.log 2 a :=
                  zpow_le_zpow_right₀ (by norm_num) (by push_cast; omega)
          linarith
        have hm : a * 2 ^ ((52:ℤ) - Int.log 2 (a + w)) =
            ((n * 2 ^ (e - (Int.log 2 (a + w) - 52)).toNat : ℤ) : ℚ) := by
          set L := Int.log 2 (a + w) with hL
          rw [Int.cast_mul, int_two_pow_cast,
            Int.toNat_of_nonneg (show (0:ℤ) ≤ e - (L - 52) by omega),
            hae, mul_assoc, ← zpow_add₀ (two_ne_zero)]
          have hexp2 : e + ((52:ℤ) - L) = e - (L - 52) := by omega
          rw [hexp2]
        have hm_le : ((n * 2 ^ (e - (Int.log 2 (a + w) - 52)).toNat : ℤ) : ℚ) ≤
            (a + w) * 2 ^ (52 - Int.log 2 (a + w)) := by
          rw [← hm]
          exact mul_le_mul_of_nonneg_right hax (zpow_pos (by norm_num : (0:ℚ) < 2) _).le
        have hm_floor : (n * 2 ^ (e - (Int.log 2 (a + w) - 52)).toNat : ℤ) ≤
            ⌊(a + w) * 2 ^ (52 - Int.log 2 (a + w))⌋ := Int.le_floor.mpr hm_le
        have hsplit : ((52:ℤ) - Int.log 2 (a + w)) + (Int.log 2 (a + w) - 52) = 0 := by
          omega
        calc a = a * 2 ^ ((52:ℤ) - Int.log 2 (a + w)) * 2 ^ (Int.log 2 (a + w) - 52) := by
              rw [mul_assoc, ← zpow_add₀ (two_ne_zero), hsplit, zpow_zero, mul_one]
          _ = ((n * 2 ^ (e - (Int.log 2 (a + w) - 52)).toNat : ℤ) : ℚ) *
              2 ^ (Int.log 2 (a + w) - 52) := by rw [hm]
          _ ≤ (⌊(a + w) * 2 ^ (52 - Int.log 2 (a + w))⌋ : ℚ) *
              2 ^ (Int.log 2 (a + w) - 52) :=
              mul_le_mul_of_nonneg_right (by exact_mod_cast hm_floor)
                (zpow_pos (by norm_num : (0:ℚ) < 2) _).le
    refine le_trans key ?_
    exact mul_le_mul_of_nonneg_right
      (by exact_mod_cast floor_le_rne ((a + w) * 2 ^ (52 - Int.log 2 (a + w))))
      (zpow_pos (by norm_num : (0:ℚ) < 2) _).le

/-! ## Assessment service data model (assessment_service/index.js, schemas) -/

/-- One option of a choice-like question: `{id, text, isCorrect}`. -/
structure QOption where
  id : String
  text : String := ""
  isCorrect : Bool := false
deriving DecidableEq

/-- Question `type` enum of the question schema. -/
inductive QType where
  | multipleChoice
  | singleChoice
  | trueFalse
  | fillInTheBlank
  | essay
  | coding
deriving DecidableEq

/-- A question in the catalog (fields used by the attempt engine). -/
structure Question where
  qid : String
  type : QType
  options : List QOption := []
  points : ℚ := 1
deriving DecidableEq

/-- Assessment lifecycle `status` enum. -/
inductive AStatus where
  | draft
  | published
  | archived
deriving DecidableEq

/-- One entry of `assessment.questions`: a question reference with an optional
per-assessment points override (`points` may be absent in the document). -/
structure AssessmentQuestion where
  question : String
  points : Option ℚ := none
deriving DecidableEq

/-- An assessment definition (fields used by the attempt engine). -/
structure Assessment where
  aid : String
  duration : ℕ
  totalPoints : ℚ := 0
  passingScore : ℚ := 0
  questions : List AssessmentQuestion := []
  randomizeQuestions : Bool := false
  allowedAttempts : ℕ := 1
  startTime : Option ℕ := none
  endTime : Option ℕ := none
  status : AStatus := .draft
deriving DecidableEq

/-- The value of a submitted answer (`mongoose.Schema.Types.Mixed`): either a
JavaScript array of option-id strings or a single string. -/
inductive AnswerValue where
  | arr : List String → AnswerValue
  | str : String → AnswerValue
deriving DecidableEq

/-- One element of `attempt.answers`. -/
structure AnswerSlot where
  question : String
  answer : Option AnswerValue := none
  isCorrect : Option Bool := none
  points : ℚ := 0
  timeSpent : Option ℕ := none
deriving DecidableEq

/-- Attempt lifecycle `status` enum. -/
inductive AttemptStatus where
  | inProgress
  | completed
  | abandoned
  | timedOut
deriving DecidableEq

/-- An assessment attempt. -/
structure Attempt where
  aid : String
  assessment : String
  user : String
  startTime : ℕ
  endTime : Option ℕ := none
  completionTime : Option ℚ := none
  answers : List AnswerSlot := []
  totalScore : ℚ := 0
  maxPossibleScore : ℚ := 0
  status : AttemptStatus := .inProgress
deriving DecidableEq

/-- The assessment service's persistent state: the three Mongo collections and
the set of Redis keys of the form `attempt_<id>` (the Session Cache). -/
structure AState where
  questionsDB : List Question := []
  assessmentsDB : List Assessment := []
  attemptsDB : List Attempt := []
  redisKeys : List String := []
deriving DecidableEq

/-- Typed errors of the attempt engine (the 4xx branches of the routes, plus
`serverError` for the catch-all 500 produced by a null dereference). -/
inductive AError where
  | notFound
  | notPublished
  | notStartedYet
  | alreadyEnded
  | attemptLimitExceeded
  | forbidden
  | alreadyFinalized
  | timeExpired
  | unknownQuestion
  | serverError
deriving DecidableEq

/-! ## Assessment service lookups and helpers -/

/-- `Question.findById`. -/
def findQuestion (s : AState) (qid : String) : Option Question :=
  s.questionsDB.find? (fun q => decide (q.qid = qid))

/-- `Assessment.findById`. -/
def findAssessment (s : AState) (aid : String) : Option Assessment :=
  s.assessmentsDB.find? (fun a => decide (a.aid = aid))

/-- `Attempt.findById`. -/
def findAttempt (s : AState) (aid : String) : Option Attempt :=
  s.attemptsDB.find? (fun t => decide (t.aid = aid))

/-- Replace the first element whose key equals `k` (the document `findById`
returned) by `b`, leaving everything else untouched: the effect of mutating a
fetched Mongoose document and calling `save()`. -/
def replaceFirst {α : Type} (key : α → String) (l : List α) (k : String) (b : α) :
    List α :=
  match l with
  | [] => []
  | t :: rest => if key t = k then b :: rest else t :: replaceFirst key rest k b

/-- Persisting a modified attempt document (`attempt.save()`): the document
with this id is replaced in the collection. -/
def replaceAttempt (s : AState) (aid : String) (att : Attempt) : AState :=
  { s with attemptsDB := replaceFirst Attempt.aid s.attemptsDB aid att }

/-- `totalPoints` as computed at assessment creation:
`for (const q of questions) totalPoints += q.points || 0`. -/
def computeTotalPoints (qs : List AssessmentQuestion) : ℚ :=
  qs.foldl (fun t q => t + q.points.getD 0) 0

/-- `attempt.answers.reduce((total, answer) => total + (answer.points || 0), 0)`. -/
def sumSlotPoints (l : List AnswerSlot) : ℚ :=
  l.foldl (fun t sl => t + sl.points) 0

/-- Schedule guard `assessment.startTime && assessment.startTime > now`. -/
def windowNotStarted (a : Assessment) (now : ℕ) : Bool :=
  match a.startTime with
  | some st => decide (now < st)
  | none => false

/-- Schedule guard `assessment.endTime && assessment.endTime < now`. -/
def windowEnded (a : Assessment) (now : ℕ) : Bool :=
  match a.endTime with
  | some et => decide (et < now)
  | none => false

/-- `Attempt.countDocuments({assessment, user})`: the prior-attempt count used
by the attempt-limit check (no status filter). -/
def countUserAttempts (l : List Attempt) (assessmentId userId : String) : ℕ :=
  (l.filter (fun t => decide (t.assessment = assessmentId) && decide (t.user = userId))).length

/-- The option ids flagged correct:
`question.options.filter(o => o.isCorrect).map(o => o.id)`. -/
def correctOptionIds (q : Question) : List String :=
  (q.options.filter (fun o => o.isCorrect)).map (fun o => o.id)

/-- Multiple-choice grading:
`Array.isArray(answer) && answer.length === correctOptionIds.length &&
 answer.every(id => correctOptionIds.includes(id))`. -/
def gradeMultipleChoice (q : Question) (answer : AnswerValue) : Bool :=
  match answer with
  | .arr ids =>
      decide (ids.length = (correctOptionIds q).length) &&
      ids.all (fun i => decide (i ∈ correctOptionIds q))
  | .str _ => false

/-- Single-choice / true-false grading:
`correctOption = question.options.find(o => o.isCorrect);
 isCorrect = correctOption && correctOption.id === answer`. -/
def gradeSingleChoice (q : Question) (answer : AnswerValue) : Bool :=
  match q.options.find? (fun o => o.isCorrect) with
  | some o =>
      match answer with
      | .str sv => decide (o.id = sv)
      | .arr _ => false
  | none => false

/-- `attempt.answers[answerIndex] = f(attempt.answers[answerIndex])` where
`answerIndex` is the first index whose `question` equals `qid` (`findIndex`). -/
def updateSlot (l : List AnswerSlot) (qid : String) (f : AnswerSlot → AnswerSlot) :
    List AnswerSlot :=
  match l with
  | [] => []
  | sl :: rest =>
      if sl.question = qid then f sl :: rest else sl :: updateSlot rest qid f

/-! ## Assessment service operations -/

/-- `POST /api/assessments/:id/attempt` (start an attempt).  `shuffle` stands
for the comparator shuffle `[...questions].sort(() => Math.random() - 0.5)`;
`newId` is the fresh Mongo id of the created attempt, `now` the current time. -/
def startAttempt (shuffle : List AssessmentQuestion → List AssessmentQuestion)
    (s : AState) (assessmentId userId : String) (now : ℕ) (newId : String) :
    Except AError (AState × Attempt) :=
  match findAssessment s assessmentId with
  | none => .error .notFound
  | some a =>
    if a.status ≠ .published then .error .notPublished
    else if windowNotStarted a now then .error .notStartedYet
    else if windowEnded a now then .error .alreadyEnded
    else if countUserAttempts s.attemptsDB assessmentId userId ≥ a.allowedAttempts then
      .error .attemptLimitExceeded
    else
      let questions := if a.randomizeQuestions then shuffle a.questions else a.questions
      let att : Attempt :=
        { aid := newId
          assessment := assessmentId
          user := userId
          startTime := now
          answers := questions.map (fun q => { question := q.question, points := 0 })
          maxPossibleScore := a.totalPoints
          status := .inProgress }
      .ok ({ s with
              attemptsDB := s.attemptsDB ++ [att]
              redisKeys := s.redisKeys ++ ["attempt_" ++ newId] }, att)

/-- `POST /api/attempts/:id/answers` (submit one answer).  Returns the error
(if any) together with the resulting state; the time-expired branch both
persists the timed-out transition and reports the error, exactly as the code
saves the attempt before responding 400. -/
def submitAnswer (s : AState) (attemptId userId questionId : String)
    (answer : AnswerValue) (now : ℕ) : Option AError × AState :=
  match findAttempt s attemptId with
  | none => (some .notFound, s)
  | some att =>
    if att.user ≠ userId then (some .forbidden, s)
    else if att.status ≠ .inProgress then (some .alreadyFinalized, s)
    else
      match findAssessment s att.assessment with
      | none => (some .serverError, s)
      | some a =>
        let timeLimit := att.startTime + a.duration * 60000
        if now > timeLimit then
          let att2 := { att with
            status := .timedOut
            endTime := some timeLimit
            completionTime := some (((timeLimit - att.startTime : ℕ) : ℚ) / 1000) }
          (some .timeExpired, replaceAttempt s attemptId att2)
        else if att.answers.all (fun sl => decide (sl.question ≠ questionId)) then
          (some .unknownQuestion, s)
        else
          match findQuestion s questionId with
          | none => (some .serverError, s)
          | some q =>
            let timeSpent := (now - att.startTime) / 1000
            let att2 := { att with
              answers := updateSlot att.answers questionId (fun sl =>
                if q.type = .multipleChoice then
                  let ic := gradeMultipleChoice q answer
                  { sl with answer := some answer, timeSpent := some timeSpent,
                            isCorrect := some ic, points := if ic then q.points else 0 }
                else if q.type = .singleChoice ∨ q.type = .trueFalse then
                  let ic := gradeSingleChoice q answer
                  { sl with answer := some answer, timeSpent := some timeSpent,
                            isCorrect := some ic, points := if ic then q.points else 0 }
                else
                  { sl with answer := some answer, timeSpent := some timeSpent }) }
            (none, replaceAttempt s attemptId att2)

/-- The success payload of `POST /api/attempts/:id/submit`. -/
structure FinishResult where
  totalScore : ℚ
  maxPossibleScore : ℚ
  percentage : JsNum
  passed : Bool
  completionTime : ℚ
deriving DecidableEq

/-- `POST /api/attempts/:id/submit` (finish an attempt).  Note that the code
saves the completed attempt and deletes the Redis key before it looks up the
assessment, so a missing assessment yields a 500 with the attempt already
finalized. -/
def finishAttempt (s : AState) (attemptId userId : String) (now : ℕ) :
    Option AError × AState × Option FinishResult :=
  match findAttempt s attemptId with
  | none => (some .notFound, s, none)
  | some att =>
    if att.user ≠ userId then (some .forbidden, s, none)
    else if att.status ≠ .inProgress then (some .alreadyFinalized, s, none)
    else
      let completionTime : ℚ := ((now - att.startTime : ℕ) : ℚ) / 1000
      let totalScore := sumSlotPoints att.answers
      let att2 := { att with
        status := .completed
        endTime := some now
        completionTime := some completionTime
        totalScore := totalScore }
      let s1 := replaceAttempt s attemptId att2
      let s2 := { s1 with
        redisKeys := s1.redisKeys.filter (fun k => decide (k ≠ "attempt_" ++ attemptId)) }
      match findAssessment s2 att.assessment with
      | none => (some .serverError, s2, none)
      | some a =>
        (none, s2, some
          { totalScore := totalScore
            maxPossibleScore := att.maxPossibleScore
            percentage := jsMul (jsDiv totalScore att.maxPossibleScore) 100
            passed := decide (totalScore ≥ a.passingScore)
            completionTime := completionTime })

/-! ## Proctor service data model (proctor_service/index.js, schemas) -/

/-- Proctor event `type` enum. -/
inductive PEventType where
  | tabSwitch
  | fullScreenExit
  | faceNotDetected
  | multipleFaces
  | audioDetected
  | suspiciousActivity
deriving DecidableEq

/-- Proctor event `severity` enum. -/
inductive Severity where
  | low
  | medium
  | high
deriving DecidableEq

/-- The `switch (severity)` of the event route: low=0.2, medium=0.5, high=1.0.
The JavaScript literals denote the binary64 doubles nearest those decimals
(0.2 and 0.5 are shorthands for `roundDouble` of the exact decimals; 0.5 and
1.0 are exactly representable, 0.2 is not). -/
def severityWeight (sev : Severity) : ℚ :=
  match sev with
  | .low => roundDouble 0.2
  | .medium => roundDouble 0.5
  | .high => roundDouble 1.0

/-- A proctoring event (fields used by the proctor engine). -/
structure PEvent where
  eid : String
  attemptId : String
  userId : String
  assessmentId : String
  type : PEventType
  severity : Severity := .medium
deriving DecidableEq

/-- Proctor session `status` enum. -/
inductive PSessionStatus where
  | active
  | completed
  | terminated
deriving DecidableEq

/-- A proctoring session (fields used by the proctor engine; the settings
snapshot is opaque to every property proved here and is omitted). -/
structure PSession where
  sid : String
  attemptId : String
  userId : String
  assessmentId : String
  startTime : ℕ
  endTime : Option ℕ := none
  status : PSessionStatus := .active
  events : List PEvent := []
  anomalyScore : ℚ := 0
deriving DecidableEq

/-- The proctor service's persistent state: the two Mongo collections. -/
structure PState where
  sessionsDB : List PSession := []
  eventsDB : List PEvent := []
deriving DecidableEq

/-- Typed errors of the proctor engine. -/
inductive PError where
  | notFound
  | forbidden
  | sessionAlreadyActive
  | notActive
deriving DecidableEq

/-- `ProctorSession.findById`. -/
def findSession (s : PState) (sid : String) : Option PSession :=
  s.sessionsDB.find? (fun ss => decide (ss.sid = sid))

/-- Persisting a modified session document (`session.save()`). -/
def replaceSession (s : PState) (sid : String) (sess : PSession) : PState :=
  { s with sessionsDB := replaceFirst PSession.sid s.sessionsDB sid sess }

/-- `ProctorSession.findOne({attemptId, userId, status: 'active'})` as a Bool
test on one document. -/
def isActiveForPair (attemptId userId : String) (ss : PSession) : Bool :=
  decide (ss.attemptId = attemptId) && decide (ss.userId = userId) &&
    decide (ss.status = .active)

/-! ## Proctor service operations -/

/-- `POST /api/proctor/sessions` (start a proctoring session). -/
def startSession (s : PState) (attemptId assessmentId userId : String)
    (now : ℕ) (newId : String) : Except PError (PState × PSession) :=
  match s.sessionsDB.find? (isActiveForPair attemptId userId) with
  | some _ => .error .sessionAlreadyActive
  | none =>
    let sess : PSession :=
      { sid := newId
        attemptId := attemptId
        userId := userId
        assessmentId := assessmentId
        startTime := now
        status := .active }
    .ok ({ s with sessionsDB := s.sessionsDB ++ [sess] }, sess)

/-- `POST /api/proctor/sessions/:id/end` (end a proctoring session). -/
def endSession (s : PState) (sessionId userId : String) (now : ℕ) :
    Except PError PState :=
  match findSession s sessionId with
  | none => .error .notFound
  | some ss =>
    if ss.userId ≠ userId then .error .forbidden
    else if ss.status ≠ .active then .error .notActive
    else
      .ok (replaceSession s sessionId
        { ss with status := .completed, endTime := some now })

/-- `POST /api/proctor/events` (record a proctoring event): creates the event
document, appends it to `session.events` and adds the severity weight to
`session.anomalyScore` with binary64 addition (`+=` on JavaScript numbers). -/
def recordEvent (s : PState) (sessionId userId : String) (ty : PEventType)
    (sev : Severity) (newEventId : String) : Except PError (PState × String) :=
  match findSession s sessionId with
  | none => .error .notFound
  | some ss =>
    if ss.userId ≠ userId then .error .forbidden
    else if ss.status ≠ .active then .error .notActive
    else
      let ev : PEvent :=
        { eid := newEventId
          attemptId := ss.attemptId
          userId := userId
          assessmentId := ss.assessmentId
          type := ty
          severity := sev }
      let ss2 := { ss with
        events := ss.events ++ [ev]
        anomalyScore := dadd ss.anomalyScore (severityWeight sev) }
      .ok ({ replaceSession s sessionId ss2 with
              eventsDB := s.eventsDB ++ [ev] }, newEventId)

/-- Sequential composition of `recordEvent` calls on one session, stopping at
the first error. -/
def recordMany (s : PState) (sessionId userId : String)
    (evs : List (PEventType × Severity × String)) : Except PError PState :=
  match evs with
  | [] => .ok s
  | e :: rest =>
    match recordEvent s sessionId userId e.1 e.2.1 e.2.2 with
    | .error err => .error err
    | .ok (s2, _) => recordMany s2 sessionId userId rest

/-- The uniqueness invariant: at most one active session per
(attemptId, userId) pair. -/
def activeUnique (s : PState) : Prop :=
  ∀ a u : String, (s.sessionsDB.filter (isActiveForPair a u)).length ≤ 1

/-- One successful mutating operation of the proctor engine. -/
inductive PStep : PState → PState → Prop where
  | start {s s2 sess a asid u now nid} :
      startSession s a asid u now nid = .ok (s2, sess) → PStep s s2
  | stop {s s2 sid u now} :
      endSession s sid u now = .ok s2 → PStep s s2
  | record {s s2 sid u ty sev eid r} :
      recordEvent s sid u ty sev eid = .ok (s2, r) → PStep s s2

/-! ## Generic list lemmas used by the verification -/

theorem find?_append_none {α : Type} {p : α → Bool} {l1 : List α} (l2 : List α)
    (h : l1.find? p = none) : (l1 ++ l2).find? p = l2.find? p := by
  induction l1 with
  | nil => simp
  | cons a t ih =>
    cases hpa : p a with
    | true =>
      rw [List.find?_cons_of_pos _ hpa] at h
      cases h
    | false =>
      rw [List.find?_cons_of_neg _ (by simp [hpa])] at h
      rw [List.cons_append, List.find?_cons_of_neg _ (by simp [hpa])]
      exact ih h

theorem replaceFirst_find? {α : Type} (key : α → String) {l : List α}
    {k : String} {a : α} (b : α)
    (h : l.find? (fun t => decide (key t = k)) = some a) (hb : key b = k) :
    (replaceFirst key l k b).find? (fun t => decide (key t = k)) = some b := by
  induction l with
  | nil => cases h
  | cons t rest ih =>
    by_cases ht : key t = k
    · rw [replaceFirst, if_pos ht]
      exact List.find?_cons_of_pos _ (by simp [hb])
    · rw [List.find?_cons_of_neg _ (by simp [ht])] at h
      rw [replaceFirst, if_neg ht, List.find?_cons_of_neg _ (by simp [ht])]
      exact ih h

theorem replaceFirst_filter_length_le {α : Type} (key : α → String)
    (p : α → Bool) {l : List α} {k : String} {a : α} (b : α)
    (h : l.find? (fun t => decide (key t = k)) = some a)
    (himp : p b = true → p a = true) :
    ((replaceFirst key l k b).filter p).length ≤ (l.filter p).length := by
  induction l with
  | nil => cases h
  | cons x rest ih =>
    by_cases ht : key x = k
    · rw [List.find?_cons_of_pos _ (by simp [ht])] at h
      injection h with h2
      subst h2
      rw [replaceFirst, if_pos ht]
      cases hpb : p b with
      | true =>
        rw [List.filter_cons_of_pos (himp hpb)]
        rw [List.filter_cons_of_pos hpb]
        simp
      | false =>
        rw [List.filter_cons_of_neg (by simp [hpb])]
        cases hpa : p x with
        | true =>
          rw [List.filter_cons_of_pos hpa]
          simp only [List.length_cons]
          omega
        | false =>
          rw [List.filter_cons_of_neg (by simp [hpa])]
    · rw [List.find?_cons_of_neg _ (by simp [ht])] at h
      rw [replaceFirst, if_neg ht]
      cases hpt : p x with
      | true =>
        rw [List.filter_cons_of_pos hpt, List.filter_cons_of_pos hpt]
        simpa using ih h
      | false =>
        rw [List.filter_cons_of_neg (by simp [hpt]),
          List.filter_cons_of_neg (by simp [hpt])]
        exact ih h

theorem foldl_add_eq_sum {α : Type} (f : α → ℚ) (l : List α) :
    ∀ init : ℚ, l.foldl (fun t x => t + f x) init = init + (l.map f).sum := by
  induction l with
  | nil => intro init; simp
  | cons a t ih =>
    intro init
    rw [List.foldl_cons, ih, List.map_cons, List.sum_cons]
    ring

theorem sumSlotPoints_eq (l : List AnswerSlot) :
    sumSlotPoints l = (l.map AnswerSlot.points).sum := by
  rw [sumSlotPoints, foldl_add_eq_sum AnswerSlot.points l 0, zero_add]

theorem computeTotalPoints_eq (qs : List AssessmentQuestion) :
    computeTotalPoints qs = (qs.map (fun q => q.points.getD 0)).sum := by
  rw [computeTotalPoints, foldl_add_eq_sum (fun q => q.points.getD 0) qs 0, zero_add]

theorem updateSlot_map_question (l : List AnswerSlot) (qid : String)
    (f : AnswerSlot → AnswerSlot) (hf : ∀ sl, (f sl).question = sl.question) :
    (updateSlot l qid f).map AnswerSlot.question = l.map AnswerSlot.question := by
  induction l with
  | nil => rfl
  | cons sl rest ih =>
    rw [updateSlot]
    by_cases h : sl.question = qid
    · rw [if_pos h]
      simp [hf sl]
    · rw [if_neg h]
      simp [ih]

theorem updateSlot_mem (l : List AnswerSlot) (qid : String)
    (f : AnswerSlot → AnswerSlot) :
    ∀ sl2 ∈ updateSlot l qid f,
      sl2 ∈ l ∨ ∃ sl, sl ∈ l ∧ sl.question = qid ∧ sl2 = f sl := by
  induction l with
  | nil => intro sl2 h; cases h
  | cons sl rest ih =>
    intro sl2 h2
    rw [updateSlot] at h2
    by_cases h : sl.question = qid
    · rw [if_pos h] at h2
      rcases List.mem_cons.mp h2 with h3 | h3
      · exact Or.inr ⟨sl, List.mem_cons_self sl rest, h, h3⟩
      · exact Or.inl (List.mem_cons_of_mem sl h3)
    · rw [if_neg h] at h2
      rcases List.mem_cons.mp h2 with h3 | h3
      · exact Or.inl (h3 ▸ List.mem_cons_self sl rest)
      · rcases ih sl2 h3 with h4 | ⟨sl3, h5, h6, h7⟩
        · exact Or.inl (List.mem_cons_of_mem sl h4)
        · exact Or.inr ⟨sl3, List.mem_cons_of_mem sl h5, h6, h7⟩

theorem filter_append_length {α : Type} (p : α → Bool) (l1 l2 : List α) :
    ((l1 ++ l2).filter p).length = (l1.filter p).length + (l2.filter p).length := by
  rw [List.filter_append, List.length_append]

/-- A `Bool` view of `Except` success, used to state that an operation did not
fail. -/
def exceptOk {ε α : Type} : Except ε α → Bool
  | .ok _ => true
  | .error _ => false

instance exceptDecEq {ε α : Type} [DecidableEq ε] [DecidableEq α] :
    DecidableEq (Except ε α)
  | .error x, .error y => decidable_of_iff (x = y) (by simp)
  | .error _, .ok _ => .isFalse (by simp)
  | .ok _, .error _ => .isFalse (by simp)
  | .ok x, .ok y => decidable_of_iff (x = y) (by simp)

theorem find?_pred_true {α : Type} {p : α → Bool} {l : List α} {a : α}
    (h : l.find? p = some a) : p a = true := by
  induction l with
  | nil => cases h
  | cons x rest ih =>
    cases hpx : p x with
    | true =>
      rw [List.find?_cons_of_pos _ hpx] at h
      injection h with h2
      rwa [h2] at hpx
    | false =>
      rw [List.find?_cons_of_neg _ (by simp [hpx])] at h
      exact ih h

theorem findAttempt_aid {s : AState} {attemptId : String} {att : Attempt}
    (h : findAttempt s attemptId = some att) : att.aid = attemptId := by
  have h2 : s.attemptsDB.find? (fun t => decide (t.aid = attemptId)) = some att := h
  simpa using find?_pred_true h2

theorem findSession_sid {s : PState} {sessionId : String} {ss : PSession}
    (h : findSession s sessionId = some ss) : ss.sid = sessionId := by
  have h2 : s.sessionsDB.find? (fun t => decide (t.sid = sessionId)) = some ss := h
  simpa using find?_pred_true h2

theorem findAssessment_replaceAttempt (s : AState) (aid : String) (att : Attempt)
    (x : String) : findAssessment (replaceAttempt s aid att) x = findAssessment s x :=
  rfl

theorem findAssessment_setRedis (s : AState) (keys : List String) (x : String) :
    findAssessment { s with redisKeys := keys } x = findAssessment s x :=
  rfl

/-! ## Concrete fixtures used by counterexamples and witnesses -/

/-- A single-choice question worth 5 points whose correct option id is `a`. -/
def qS : Question :=
  { qid := "q1"
    type := QType.singleChoice
    options := [{ id := "a", isCorrect := true }, { id := "b" }]
    points := 5 }

/-- A published assessment of 10 minutes with one question worth 5 points. -/
def assess1 : Assessment :=
  { aid := "as1"
    duration := 10
    totalPoints := 5
    passingScore := 5
    questions := [{ question := "q1", points := some 5 }]
    allowedAttempts := 1
    status := AStatus.published }

/-- An in-progress attempt on `assess1` started at time 0. -/
def att1 : Attempt :=
  { aid := "at1"
    assessment := "as1"
    user := "u1"
    startTime := 0
    answers := [{ question := "q1", points := 0 }]
    maxPossibleScore := 5
    status := AttemptStatus.inProgress }

/-- A service state holding `qS`, `assess1` and the in-progress `att1`. -/
def state1 : AState :=
  { questionsDB := [qS]
    assessmentsDB := [assess1]
    attemptsDB := [att1]
    redisKeys := ["attempt_at1"] }

/-! ## C3: SubmitAnswer past the budget boundary -/

/-- C3: on an in-progress attempt whose elapsed time exceeds the assessment
duration, SubmitAnswer fails with TimeExpired, transitions the attempt to
timed-out with endTime equal to startTime + duration (the budget boundary) and
completionTime computed from that boundary, and every subsequent FinishAttempt
by the same user fails with AlreadyFinalized. -/
theorem c3_timeout_submit_then_finish
    (s : AState) (attemptId userId questionId : String) (answer : AnswerValue)
    (now : ℕ) (att : Attempt) (a : Assessment)
    (hatt : findAttempt s attemptId = some att)
    (huser : att.user = userId)
    (hstatus : att.status = .inProgress)
    (hassess : findAssessment s att.assessment = some a)
    (hlate : now > att.startTime + a.duration * 60000) :
    ∃ s2, submitAnswer s attemptId userId questionId answer now =
        (some .timeExpired, s2) ∧
      (∃ att2, findAttempt s2 attemptId = some att2 ∧
        att2.status = .timedOut ∧
        att2.endTime = some (att.startTime + a.duration * 60000) ∧
        att2.completionTime = some ((a.duration : ℚ) * 60)) ∧
      ∀ now2, finishAttempt s2 attemptId userId now2 =
        (some .alreadyFinalized, s2, none) := by
  have haid : att.aid = attemptId := findAttempt_aid hatt
  refine ⟨replaceAttempt s attemptId
    { att with status := .timedOut,
               endTime := some (att.startTime + a.duration * 60000),
               completionTime := some
                 (((att.startTime + a.duration * 60000 - att.startTime : ℕ) : ℚ) / 1000) },
    ?_, ?_, ?_⟩
  · rw [submitAnswer, hatt]
    simp only [huser, hstatus, ne_eq, not_true_eq_false, if_false, hassess,
      reduceCtorEq, ite_false, if_pos hlate]
  · have h2 : s.attemptsDB.find? (fun t => decide (t.aid = attemptId)) =
        some att := hatt
    have hfind2 := replaceFirst_find? Attempt.aid
      { att with status := .timedOut,
                 endTime := some (att.startTime + a.duration * 60000),
                 completionTime := some
                   (((att.startTime + a.duration * 60000 - att.startTime : ℕ) : ℚ) / 1000) }
      h2 haid
    refine ⟨_, hfind2, rfl, rfl, ?_⟩
    have hsub : att.startTime + a.duration * 60000 - att.startTime =
        a.duration * 60000 := by omega
    show some (((att.startTime + a.duration * 60000 - att.startTime : ℕ) : ℚ) / 1000) = _
    rw [hsub]
    congr 1
    push_cast
    rw [div_eq_iff (by norm_num : (1000 : ℚ) ≠ 0)]
    ring
  · intro now2
    have h2 : s.attemptsDB.find? (fun t => decide (t.aid = attemptId)) =
        some att := hatt
    have hfind2 := replaceFirst_find? Attempt.aid
      { att with status := .timedOut,
                 endTime := some (att.startTime + a.duration * 60000),
                 completionTime := some
                   (((att.startTime + a.duration * 60000 - att.startTime : ℕ) : ℚ) / 1000) }
      h2 haid
    rw [finishAttempt]
    rw [show findAttempt (replaceAttempt s attemptId
        { att with status := .timedOut,
                   endTime := some (att.startTime + a.duration * 60000),
                   completionTime := some
                     (((att.startTime + a.duration * 60000 - att.startTime : ℕ) : ℚ) / 1000) })
        attemptId = some
        { att with status := .timedOut,
                   endTime := some (att.startTime + a.duration * 60000),
                   completionTime := some
                     (((att.startTime + a.duration * 60000 - att.startTime : ℕ) : ℚ) / 1000) }
      from hfind2]
    simp [huser]


/-- C3 witness: the theorem applied to a concrete timed-out submission. -/
theorem c3_witness :
    ∃ s2, submitAnswer state1 ("at1") ("u1") ("q1") (AnswerValue.str ("a")) 600001 =
        (some AError.timeExpired, s2) ∧
      (∃ att2, findAttempt s2 ("at1") = some att2 ∧
        att2.status = AttemptStatus.timedOut ∧
        att2.endTime = some (att1.startTime + assess1.duration * 60000) ∧
        att2.completionTime = some ((assess1.duration : ℚ) * 60)) ∧
      ∀ now2, finishAttempt s2 ("at1") ("u1") now2 =
        (some AError.alreadyFinalized, s2, none) :=
  c3_timeout_submit_then_finish state1 ("at1") ("u1") ("q1")
    (AnswerValue.str ("a")) 600001 att1 assess1 (by decide) (by decide)
    (by decide) (by decide) (by decide)

/-! ## C4: FinishAttempt does not perform the timeout transition -/

/-- C4 counterexample: an in-progress attempt whose time budget elapsed at
600000 ms is finished at 1000000 ms, yet FinishAttempt completes it with
endTime = now rather than transitioning it to timed-out at the boundary. -/
theorem c4_counterexample :
    1000000 > att1.startTime + assess1.duration * 60000 ∧
    (finishAttempt state1 ("at1") ("u1") 1000000).1 = none ∧
    (findAttempt (finishAttempt state1 ("at1") ("u1") 1000000).2.1 ("at1")).map
      Attempt.status = some AttemptStatus.completed ∧
    (findAttempt (finishAttempt state1 ("at1") ("u1") 1000000).2.1 ("at1")).map
      Attempt.endTime = some (some 1000000) := by
  decide

/-- The attempt document as the finish route persists it. -/
def finishedAttempt (att : Attempt) (now : ℕ) : Attempt :=
  { att with
    status := .completed
    endTime := some now
    completionTime := some (((now - att.startTime : ℕ) : ℚ) / 1000)
    totalScore := sumSlotPoints att.answers }

/-- The service state after the finish route persisted the attempt and
deleted the Redis key. -/
def finishedState (s : AState) (attemptId : String) (att : Attempt) (now : ℕ) :
    AState :=
  let s1 := replaceAttempt s attemptId (finishedAttempt att now)
  { s1 with
    redisKeys := s1.redisKeys.filter (fun k => decide (k ≠ "attempt_" ++ attemptId)) }

/-- The result payload the finish route returns. -/
def finishedResult (att : Attempt) (a : Assessment) (now : ℕ) : FinishResult :=
  { totalScore := sumSlotPoints att.answers
    maxPossibleScore := att.maxPossibleScore
    percentage := jsMul (jsDiv (sumSlotPoints att.answers) att.maxPossibleScore) 100
    passed := decide (sumSlotPoints att.answers ≥ a.passingScore)
    completionTime := ((now - att.startTime : ℕ) : ℚ) / 1000 }

/-- Characterization of a successful FinishAttempt. -/
theorem finishAttempt_eq (s : AState) (attemptId userId : String) (now : ℕ)
    (att : Attempt) (a : Assessment)
    (hatt : findAttempt s attemptId = some att)
    (huser : att.user = userId)
    (hstatus : att.status = .inProgress)
    (hassess : findAssessment s att.assessment = some a) :
    finishAttempt s attemptId userId now =
      (none, finishedState s attemptId att now, some (finishedResult att a now)) := by
  rw [finishAttempt, hatt]
  have hassess2 : s.assessmentsDB.find? (fun t => decide (t.aid = att.assessment)) =
      some a := hassess
  simp only [huser, hstatus, ne_eq, not_true_eq_false, if_false, reduceCtorEq,
    ite_false, findAssessment, hassess2,
    finishedState, finishedAttempt, finishedResult, replaceAttempt]

/-- After a successful finish, looking up the attempt yields the persisted
completed document. -/
theorem findAttempt_finishedState (s : AState) (attemptId : String)
    (att : Attempt) (now : ℕ) (hatt : findAttempt s attemptId = some att) :
    findAttempt (finishedState s attemptId att now) attemptId =
      some (finishedAttempt att now) := by
  have haid : att.aid = attemptId := findAttempt_aid hatt
  have h2 : s.attemptsDB.find? (fun t => decide (t.aid = attemptId)) =
      some att := hatt
  exact replaceFirst_find? Attempt.aid (finishedAttempt att now) h2 haid

/-- C4 amended: FinishAttempt performs no timeout check at all.  For every
in-progress attempt owned by the caller, even when now is past
startTime + duration, FinishAttempt succeeds and finalizes the attempt as
completed with endTime = now; the timeout transition is triggered only by
SubmitAnswer. -/
theorem c4_amended_finish_ignores_timeout
    (s : AState) (attemptId userId : String) (now : ℕ) (att : Attempt)
    (a : Assessment)
    (hatt : findAttempt s attemptId = some att)
    (huser : att.user = userId)
    (hstatus : att.status = .inProgress)
    (hassess : findAssessment s att.assessment = some a)
    (hlate : now > att.startTime + a.duration * 60000) :
    ∃ s2 res, finishAttempt s attemptId userId now = (none, s2, some res) ∧
      ∃ att2, findAttempt s2 attemptId = some att2 ∧
        att2.status = .completed ∧
        att2.status ≠ .timedOut ∧
        att2.endTime = some now := by
  refine ⟨finishedState s attemptId att now, finishedResult att a now,
    finishAttempt_eq s attemptId userId now att a hatt huser hstatus hassess,
    finishedAttempt att now, findAttempt_finishedState s attemptId att now hatt,
    rfl, by simp [finishedAttempt], rfl⟩

/-- C4 witness for the amended theorem, at the concrete state of the
counterexample. -/
theorem c4_amended_witness :
    ∃ s2 res, finishAttempt state1 ("at1") ("u1") 1000000 = (none, s2, some res) ∧
      ∃ att2, findAttempt s2 ("at1") = some att2 ∧
        att2.status = AttemptStatus.completed ∧
        att2.status ≠ AttemptStatus.timedOut ∧
        att2.endTime = some 1000000 :=
  c4_amended_finish_ignores_timeout state1 ("at1") ("u1") 1000000 att1 assess1
    (by decide) (by decide) (by decide) (by decide) (by decide)

/-! ## C6: FinishAttempt effects -/

/-- C6: for every in-progress attempt owned by the calling user, FinishAttempt
completes the attempt with endTime = now, completionTime = (now − startTime)
in seconds, totalScore = sum of the answer-slot points, removes the Session
Cache (Redis) record, and reports passed exactly when
totalScore ≥ assessment.passingScore (a points-based comparison). -/
theorem c6_finish_effects
    (s : AState) (attemptId userId : String) (now : ℕ) (att : Attempt)
    (a : Assessment)
    (hatt : findAttempt s attemptId = some att)
    (huser : att.user = userId)
    (hstatus : att.status = .inProgress)
    (hassess : findAssessment s att.assessment = some a) :
    ∃ s2 res, finishAttempt s attemptId userId now = (none, s2, some res) ∧
      res.totalScore = sumSlotPoints att.answers ∧
      res.maxPossibleScore = att.maxPossibleScore ∧
      res.completionTime = ((now - att.startTime : ℕ) : ℚ) / 1000 ∧
      (res.passed = true ↔ res.totalScore ≥ a.passingScore) ∧
      (∃ att2, findAttempt s2 attemptId = some att2 ∧
        att2.status = .completed ∧
        att2.endTime = some now ∧
        att2.completionTime = some res.completionTime ∧
        att2.totalScore = res.totalScore) ∧
      ("attempt_" ++ attemptId) ∉ s2.redisKeys := by
  refine ⟨finishedState s attemptId att now, finishedResult att a now,
    finishAttempt_eq s attemptId userId now att a hatt huser hstatus hassess,
    rfl, rfl, rfl, ?_, ⟨finishedAttempt att now,
      findAttempt_finishedState s attemptId att now hatt,
      rfl, rfl, rfl, rfl⟩, ?_⟩
  · simp [finishedResult]
  · simp [finishedState, replaceAttempt, List.mem_filter]

/-- C6 witness: the theorem at a concrete state; the Redis record
`attempt_at1` is present before the call and absent afterwards. -/
theorem c6_witness :
    ∃ s2 res, finishAttempt state1 ("at1") ("u1") 300000 = (none, s2, some res) ∧
      res.totalScore = sumSlotPoints att1.answers ∧
      res.maxPossibleScore = att1.maxPossibleScore ∧
      res.completionTime = ((300000 - att1.startTime : ℕ) : ℚ) / 1000 ∧
      (res.passed = true ↔ res.totalScore ≥ assess1.passingScore) ∧
      (∃ att2, findAttempt s2 ("at1") = some att2 ∧
        att2.status = AttemptStatus.completed ∧
        att2.endTime = some 300000 ∧
        att2.completionTime = some res.completionTime ∧
        att2.totalScore = res.totalScore) ∧
      ("attempt_" ++ "at1") ∉ s2.redisKeys :=
  c6_finish_effects state1 ("at1") ("u1") 300000 att1 assess1
    (by decide) (by decide) (by decide) (by decide)

/-! ## C5: the availability window is closed, not half-open -/

/-- A published assessment with availability window [100, 200]. -/
def assessW : Assessment :=
  { aid := "as2"
    duration := 10
    totalPoints := 5
    passingScore := 5
    questions := [{ question := "q1", points := some 5 }]
    allowedAttempts := 1
    startTime := some 100
    endTime := some 200
    status := AStatus.published }

/-- A state holding only `assessW` and no attempts. -/
def stateW : AState :=
  { questionsDB := [qS], assessmentsDB := [assessW] }

/-- C5 counterexample: StartAttempt invoked exactly at now = endTime does not
fail — the code's schedule check accepts now = endTime (closed interval),
contradicting the claimed half-open window. -/
theorem c5_counterexample :
    assessW.endTime = some 200 ∧
    exceptOk (startAttempt (fun l => l) stateW ("as2") ("u1") 200 ("at9")) = true ∧
    startAttempt (fun l => l) stateW ("as2") ("u1") 200 ("at9") ≠
      Except.error AError.alreadyEnded ∧
    startAttempt (fun l => l) stateW ("as2") ("u1") 200 ("at9") ≠
      Except.error AError.notStartedYet := by
  decide

/-- C5 amended: for a published assessment with both startTime and endTime
set, the schedule check of StartAttempt accepts the closed window
startTime ≤ now ≤ endTime: it fails before startTime, fails after endTime,
and inside the closed window (endTime included) it never reports a schedule
error. -/
theorem c5_amended_window_closed
    (shuffle : List AssessmentQuestion → List AssessmentQuestion)
    (s : AState) (asid uid nid : String) (a : Assessment) (st et : ℕ)
    (hfind : findAssessment s asid = some a)
    (hpub : a.status = .published)
    (hst : a.startTime = some st)
    (het : a.endTime = some et) :
    (∀ now, now < st →
      startAttempt shuffle s asid uid now nid = .error .notStartedYet) ∧
    (∀ now, st ≤ now → et < now →
      startAttempt shuffle s asid uid now nid = .error .alreadyEnded) ∧
    (∀ now, st ≤ now → now ≤ et →
      startAttempt shuffle s asid uid now nid ≠ .error .notStartedYet ∧
      startAttempt shuffle s asid uid now nid ≠ .error .alreadyEnded) := by
  refine ⟨?_, ?_, ?_⟩
  · intro now h1
    rw [startAttempt, hfind]
    simp [hpub, windowNotStarted, hst, h1]
  · intro now h1 h2
    rw [startAttempt, hfind]
    simp [hpub, windowNotStarted, windowEnded, hst, het, Nat.not_lt.mpr h1, h2]
  · intro now h1 h2
    rw [startAttempt, hfind]
    simp only [hpub, ne_eq, reduceCtorEq, not_false_eq_true, ite_false,
      windowNotStarted, windowEnded, hst, het, if_false,
      decide_eq_true_eq, Nat.not_lt.mpr h1, Nat.not_lt.mpr h2]
    constructor
    · split
      · simp
      · split <;> simp
    · split
      · simp
      · split <;> simp

/-- C5 witness for the amended theorem: with window [100, 200], StartAttempt
at 50 reports the not-started error, at 250 the already-ended error, and at
200 (the right endpoint) neither. -/
theorem c5_amended_witness :
    startAttempt (fun l => l) stateW ("as2") ("u1") 50 ("at9") =
      Except.error AError.notStartedYet ∧
    startAttempt (fun l => l) stateW ("as2") ("u1") 250 ("at9") =
      Except.error AError.alreadyEnded ∧
    startAttempt (fun l => l) stateW ("as2") ("u1") 200 ("at9") ≠
      Except.error AError.notStartedYet ∧
    startAttempt (fun l => l) stateW ("as2") ("u1") 200 ("at9") ≠
      Except.error AError.alreadyEnded := by
  have h := c5_amended_window_closed (fun l => l) stateW ("as2") ("u1") ("at9")
    assessW 100 200 (by decide) (by decide) (by decide) (by decide)
  refine ⟨h.1 50 (by decide), h.2.1 250 (by decide) (by decide), ?_, ?_⟩
  · exact (h.2.2 200 (by decide) (by decide)).1
  · exact (h.2.2 200 (by decide) (by decide)).2

/-! ## C9: unguarded percentage division for empty assessments -/

/-- C9: StartAttempt accepts a published assessment whose question list is
empty (given the other preconditions hold), producing an attempt with
maxPossibleScore = 0, and FinishAttempt on that attempt reaches the
percentage computation (totalScore / maxPossibleScore) * 100 with a zero
denominator, producing the JavaScript NaN (0/0) in the returned result. -/
theorem c9_unguarded_division
    (shuffle : List AssessmentQuestion → List AssessmentQuestion)
    (s : AState) (asid uid : String) (now : ℕ) (nid : String) (a : Assessment)
    (hfind : findAssessment s asid = some a)
    (hpub : a.status = .published)
    (hempty : a.questions = [])
    (htot : a.totalPoints = computeTotalPoints a.questions)
    (hperm : (shuffle a.questions).Perm a.questions)
    (hw1 : windowNotStarted a now = false)
    (hw2 : windowEnded a now = false)
    (hcount : countUserAttempts s.attemptsDB asid uid < a.allowedAttempts)
    (hfresh : ∀ t ∈ s.attemptsDB, t.aid ≠ nid) :
    ∃ s1 att, startAttempt shuffle s asid uid now nid = .ok (s1, att) ∧
      att.maxPossibleScore = 0 ∧
      ∀ now2, ∃ s2 res, finishAttempt s1 nid uid now2 = (none, s2, some res) ∧
        res.maxPossibleScore = 0 ∧
        res.percentage = JsNum.nan := by
  have hsh : shuffle a.questions = [] := by
    rw [hempty] at hperm
    rw [hempty]
    exact hperm.eq_nil
  have hq : (if a.randomizeQuestions then shuffle a.questions else a.questions) = [] := by
    cases a.randomizeQuestions
    · simpa using hempty
    · simpa using hsh
  have hmax : a.totalPoints = 0 := by rw [htot, hempty]; rfl
  have hnotle : ¬ (countUserAttempts s.attemptsDB asid uid ≥ a.allowedAttempts) :=
    Nat.not_le.mpr hcount
  refine ⟨{ s with
      attemptsDB := s.attemptsDB ++
        [{ aid := nid, assessment := asid, user := uid, startTime := now,
           answers := [], maxPossibleScore := a.totalPoints,
           status := .inProgress }]
      redisKeys := s.redisKeys ++ ["attempt_" ++ nid] },
    { aid := nid, assessment := asid, user := uid, startTime := now,
      answers := [], maxPossibleScore := a.totalPoints, status := .inProgress },
    ?_, hmax, ?_⟩
  · rw [startAttempt, hfind]
    simp [hpub, hw1, hw2, hnotle, hq]
  · intro now2
    have hfind1 : findAttempt { s with
        attemptsDB := s.attemptsDB ++
          [{ aid := nid, assessment := asid, user := uid, startTime := now,
             answers := [], maxPossibleScore := a.totalPoints,
             status := .inProgress }]
        redisKeys := s.redisKeys ++ ["attempt_" ++ nid] } nid =
        some { aid := nid, assessment := asid, user := uid, startTime := now,
               answers := [], maxPossibleScore := a.totalPoints,
               status := .inProgress } := by
      show (s.attemptsDB ++ _).find? _ = _
      rw [find?_append_none _ (List.find?_eq_none.mpr (fun x hx => by
        simp [hfresh x hx]))]
      exact List.find?_cons_of_pos _ (by simp)
    have hassess1 : findAssessment { s with
        attemptsDB := s.attemptsDB ++
          [{ aid := nid, assessment := asid, user := uid, startTime := now,
             answers := [], maxPossibleScore := a.totalPoints,
             status := .inProgress }]
        redisKeys := s.redisKeys ++ ["attempt_" ++ nid] } asid = some a := hfind
    refine ⟨_, _, finishAttempt_eq _ nid uid now2 _ a hfind1 rfl rfl hassess1,
      ?_, ?_⟩
    · exact hmax
    · simp [finishedResult, sumSlotPoints, jsDiv, jsMul, hmax]

/-- A published assessment with an empty question list. -/
def assessE : Assessment :=
  { aid := "as3"
    duration := 10
    totalPoints := 0
    passingScore := 0
    questions := []
    allowedAttempts := 1
    status := AStatus.published }

/-- A state holding only the empty assessment. -/
def stateE : AState := { assessmentsDB := [assessE] }

/-- C9 witness: the theorem at the concrete empty assessment. -/
theorem c9_witness :
    ∃ s1 att, startAttempt (fun l => l) stateE ("as3") ("u1") 0 ("at3") =
        .ok (s1, att) ∧
      att.maxPossibleScore = 0 ∧
      ∀ now2, ∃ s2 res, finishAttempt s1 ("at3") ("u1") now2 =
          (none, s2, some res) ∧
        res.maxPossibleScore = 0 ∧
        res.percentage = JsNum.nan :=
  c9_unguarded_division (fun l => l) stateE ("as3") ("u1") 0 ("at3") assessE
    (by decide) (by decide) (by decide) (by decide) (List.Perm.refl _)
    (by decide) (by decide) (by decide) (by decide)

/-! ## C10: the attempt-limit check counts attempts of every status -/

/-- C10: the attempt-limit check of StartAttempt counts prior attempts with no
status filter: whenever the total number of this user's attempts on the
assessment (of any status) is at least allowedAttempts, StartAttempt fails
with the attempt-limit error; and the count is invariant under arbitrarily
rewriting the status of every stored attempt, so no finalization status frees
an attempt slot. -/
theorem c10_attempt_limit_all_statuses :
    (∀ (shuffle : List AssessmentQuestion → List AssessmentQuestion)
        (s : AState) (asid uid : String) (now : ℕ) (nid : String)
        (a : Assessment),
        findAssessment s asid = some a →
        a.status = .published →
        windowNotStarted a now = false →
        windowEnded a now = false →
        countUserAttempts s.attemptsDB asid uid ≥ a.allowedAttempts →
        startAttempt shuffle s asid uid now nid = .error .attemptLimitExceeded) ∧
    (∀ (l : List Attempt) (g : Attempt → AttemptStatus) (asid uid : String),
        countUserAttempts (l.map (fun t => { t with status := g t })) asid uid =
          countUserAttempts l asid uid) := by
  constructor
  · intro shuffle s asid uid now nid a hfind hpub hw1 hw2 hcount
    rw [startAttempt, hfind]
    simp only [hpub, ne_eq, reduceCtorEq, not_false_eq_true, ite_false, if_false,
      hw1, hw2, Bool.false_eq_true, if_pos hcount]
    simp
  · intro l g asid uid
    induction l with
    | nil => rfl
    | cons t rest ih =>
      simp only [countUserAttempts, List.map_cons, List.filter_cons] at ih ⊢
      cases h : decide (t.assessment = asid) && decide (t.user = uid) with
      | true => simp only [h, if_true, List.length_cons, ih]
      | false => simp only [h, Bool.false_eq_true, if_false, ih]

/-- An already-finalized (timed-out) attempt on `assess1` by the same user. -/
def attDone : Attempt :=
  { aid := "at5"
    assessment := "as1"
    user := "u1"
    startTime := 0
    status := AttemptStatus.timedOut }

/-- A state where the user's single allowed attempt is timed-out. -/
def stateL : AState :=
  { questionsDB := [qS], assessmentsDB := [assess1], attemptsDB := [attDone] }

/-- C10 witness: a user whose only attempt is timed-out (not in-progress)
still hits the limit, and rewriting statuses does not change the count. -/
theorem c10_witness :
    startAttempt (fun l => l) stateL ("as1") ("u1") 0 ("at6") =
      Except.error AError.attemptLimitExceeded ∧
    countUserAttempts
        ([attDone].map (fun t => { t with status := AttemptStatus.completed }))
        ("as1") ("u1") =
      countUserAttempts [attDone] ("as1") ("u1") :=
  ⟨c10_attempt_limit_all_statuses.1 (fun l => l) stateL ("as1") ("u1") 0
      ("at6") assess1 (by decide) (by decide) (by decide) (by decide) (by decide),
   c10_attempt_limit_all_statuses.2 [attDone] (fun _ => AttemptStatus.completed)
      ("as1") ("u1")⟩

/-! ## C2: multiple-choice grading is not duplicate-independent -/

/-- A multiple-choice question worth 5 points with correct options a and b. -/
def qM : Question :=
  { qid := "q2"
    type := QType.multipleChoice
    options := [{ id := "a", isCorrect := true }, { id := "b", isCorrect := true },
                { id := "c" }]
    points := 5 }

/-- A published assessment holding only `qM`. -/
def assessM : Assessment :=
  { aid := "as4"
    duration := 10
    totalPoints := 5
    passingScore := 5
    questions := [{ question := "q2", points := some 5 }]
    allowedAttempts := 1
    status := AStatus.published }

/-- An in-progress attempt on `assessM`. -/
def attM : Attempt :=
  { aid := "at2"
    assessment := "as4"
    user := "u1"
    startTime := 0
    answers := [{ question := "q2", points := 0 }]
    maxPossibleScore := 5
    status := AttemptStatus.inProgress }

/-- A state holding `qM`, `assessM` and `attM`. -/
def stateM : AState :=
  { questionsDB := [qM]
    assessmentsDB := [assessM]
    attemptsDB := [attM]
    redisKeys := ["attempt_at2"] }

/-- C2 counterexample: with correct option-id set {a, b}, the submitted list
[a, a] — whose underlying set {a} is a strict subset of the correct set —
grades true, both for the grading function and through SubmitAnswer, because
the code compares lengths and membership rather than sets. -/
theorem c2_counterexample :
    correctOptionIds qM = ["a", "b"] ∧
    gradeMultipleChoice qM (AnswerValue.arr ["a", "a"]) = true ∧
    ("b" ∈ correctOptionIds qM ∧ "b" ∉ (["a", "a"] : List String)) ∧
    (submitAnswer stateM ("at2") ("u1") ("q2") (AnswerValue.arr ["a", "a"]) 1000).1 =
      none ∧
    (findAttempt (submitAnswer stateM ("at2") ("u1") ("q2")
        (AnswerValue.arr ["a", "a"]) 1000).2 ("at2")).map
      (fun t => t.answers.map AnswerSlot.isCorrect) = some [some true] := by
  decide

/-- C2 amended: multiple-choice grading returns true iff the submitted value
is an array whose length equals the number of correct option ids and whose
every element is a correct option id.  This is order-independent (every
permutation of the correct list grades true) but not set-equality: lists with
duplicated correct ids also grade true while their underlying set is a strict
subset of the correct set. -/
theorem c2_amended_grade_characterization (q : Question) (answer : AnswerValue) :
    (gradeMultipleChoice q answer = true ↔
      ∃ ids, answer = AnswerValue.arr ids ∧
        ids.length = (correctOptionIds q).length ∧
        ∀ x ∈ ids, x ∈ correctOptionIds q) ∧
    (∀ ids, ids.Perm (correctOptionIds q) →
      gradeMultipleChoice q (AnswerValue.arr ids) = true) := by
  constructor
  · cases answer with
    | str v => simp [gradeMultipleChoice]
    | arr ids =>
      simp only [gradeMultipleChoice, Bool.and_eq_true, decide_eq_true_eq,
        List.all_eq_true, AnswerValue.arr.injEq]
      constructor
      · rintro ⟨h1, h2⟩
        exact ⟨ids, rfl, h1, h2⟩
      · rintro ⟨ids2, rfl, h1, h2⟩
        exact ⟨h1, h2⟩
  · intro ids hperm
    simp only [gradeMultipleChoice, Bool.and_eq_true, decide_eq_true_eq,
      List.all_eq_true]
    exact ⟨hperm.length_eq, fun x hx => hperm.subset hx⟩

/-- C2 witness for the amended theorem: the permutation [b, a] of the correct
list [a, b] of `qM` grades true. -/
theorem c2_amended_witness :
    gradeMultipleChoice qM (AnswerValue.arr ["b", "a"]) = true :=
  (c2_amended_grade_characterization qM (AnswerValue.arr ["b", "a"])).2
    ["b", "a"] (by decide)

/-! ## C7: at most one active proctor session per (attemptId, userId) -/

theorem severityWeight_nonneg (sev : Severity) : 0 ≤ severityWeight sev := by
  cases sev
  · exact roundDouble_nonneg (by norm_num)
  · exact roundDouble_nonneg (by norm_num)
  · exact roundDouble_nonneg (by norm_num)

/-- C7: StartSession fails with SessionAlreadyActive whenever an active
session for the (attemptId, userId) pair already exists, and every successful
operation of the proctor engine preserves the invariant that at most one
active session exists per pair. -/
theorem c7_active_unique :
    (∀ (s : PState) (a asid u : String) (now : ℕ) (nid : String),
      (∃ ss, ss ∈ s.sessionsDB ∧ isActiveForPair a u ss = true) →
      startSession s a asid u now nid = .error .sessionAlreadyActive) ∧
    (∀ s s2 : PState, activeUnique s → PStep s s2 → activeUnique s2) := by
  constructor
  · rintro s a asid u now nid ⟨ss, hmem, hact⟩
    rw [startSession]
    cases hfind : s.sessionsDB.find? (isActiveForPair a u) with
    | none =>
      exact absurd hact (by simpa using List.find?_eq_none.mp hfind ss hmem)
    | some s3 => rfl
  · intro s s2 hinv hstep
    cases hstep with
    | start h =>
      rw [startSession] at h
      rename_i sess a asid u now nid
      cases hfind : s.sessionsDB.find? (isActiveForPair a u) with
      | some s3 => rw [hfind] at h; cases h
      | none =>
        rw [hfind] at h
        injection h with h1
        rw [Prod.mk.injEq] at h1
        obtain ⟨h2, h3⟩ := h1
        subst h2
        intro a0 u0
        show ((s.sessionsDB ++ [_]).filter (isActiveForPair a0 u0)).length ≤ 1
        rw [filter_append_length]
        cases hp : isActiveForPair a0 u0
            { sid := nid, attemptId := a, userId := u, assessmentId := asid,
              startTime := now, status := .active } with
        | false =>
          rw [List.filter_cons_of_neg (by simp [hp]), List.filter_nil]
          simpa using hinv a0 u0
        | true =>
          have hpair : a = a0 ∧ u = u0 := by
            have := hp
            simp only [isActiveForPair, Bool.and_eq_true, decide_eq_true_eq] at this
            exact ⟨this.1.1, this.1.2⟩
          obtain ⟨rfl, rfl⟩ := hpair
          have hnil : s.sessionsDB.filter (isActiveForPair a u) = [] := by
            rw [List.filter_eq_nil_iff]
            intro x hx
            simpa using List.find?_eq_none.mp hfind x hx
          rw [hnil, List.filter_cons_of_pos hp, List.filter_nil]
          simp
    | stop h =>
      rename_i sid u now
      cases hfind : findSession s sid with
      | none => rw [endSession, hfind] at h; cases h
      | some ss =>
        by_cases huser : ss.userId = u
        · by_cases hact : ss.status = .active
          · have he : endSession s sid u now = .ok (replaceSession s sid
                { ss with status := .completed, endTime := some now }) := by
              rw [endSession, hfind]
              simp [huser, hact]
            rw [he] at h
            injection h with h1
            subst h1
            intro a0 u0
            have h2 : s.sessionsDB.find? (fun t => decide (t.sid = sid)) =
                some ss := hfind
            refine le_trans (replaceFirst_filter_length_le PSession.sid
              (isActiveForPair a0 u0)
              { ss with status := .completed, endTime := some now } h2 ?_)
              (hinv a0 u0)
            intro hc
            simp [isActiveForPair] at hc
          · have he : endSession s sid u now = .error .notActive := by
              rw [endSession, hfind]
              simp [huser, hact]
            rw [he] at h
            cases h
        · have he : endSession s sid u now = .error .forbidden := by
            rw [endSession, hfind]
            simp [huser]
          rw [he] at h
          cases h
    | record h =>
      rename_i sid u ty sev eid r
      cases hfind : findSession s sid with
      | none => rw [recordEvent, hfind] at h; cases h
      | some ss =>
        by_cases huser : ss.userId = u
        · by_cases hact : ss.status = .active
          · have he : recordEvent s sid u ty sev eid = .ok
                ({ replaceSession s sid
                    { ss with
                      events := ss.events ++
                        [{ eid := eid, attemptId := ss.attemptId, userId := u,
                           assessmentId := ss.assessmentId, type := ty,
                           severity := sev }],
                      anomalyScore := dadd ss.anomalyScore (severityWeight sev) } with
                   eventsDB := s.eventsDB ++
                     [{ eid := eid, attemptId := ss.attemptId, userId := u,
                        assessmentId := ss.assessmentId, type := ty,
                        severity := sev }] }, eid) := by
              rw [recordEvent, hfind]
              simp [huser, hact]
            rw [he] at h
            injection h with h1
            rw [Prod.mk.injEq] at h1
            obtain ⟨h2, h3⟩ := h1
            subst h2
            intro a0 u0
            have h4 : s.sessionsDB.find? (fun t => decide (t.sid = sid)) =
                some ss := hfind
            refine le_trans (replaceFirst_filter_length_le PSession.sid
              (isActiveForPair a0 u0)
              { ss with
                events := ss.events ++
                  [{ eid := eid, attemptId := ss.attemptId, userId := u,
                     assessmentId := ss.assessmentId, type := ty,
                     severity := sev }],
                anomalyScore := dadd ss.anomalyScore (severityWeight sev) }
              h4 ?_) (hinv a0 u0)
            exact fun hc => hc
          · have he : recordEvent s sid u ty sev eid = .error .notActive := by
              rw [recordEvent, hfind]
              simp [huser, hact]
            rw [he] at h
            cases h
        · have he : recordEvent s sid u ty sev eid = .error .forbidden := by
            rw [recordEvent, hfind]
            simp [huser]
          rw [he] at h
          cases h

/-- An active proctor session for attempt `at1` and user `u1`. -/
def psActive : PSession :=
  { sid := "ps1"
    attemptId := "at1"
    userId := "u1"
    assessmentId := "as1"
    startTime := 0
    status := .active }

/-- A proctor state holding only the active session `psActive`. -/
def pstate1 : PState := { sessionsDB := [psActive] }

/-- The event document RecordEvent creates. -/
def recordedEvent (ss : PSession) (userId : String) (ty : PEventType)
    (sev : Severity) (eid : String) : PEvent :=
  { eid := eid
    attemptId := ss.attemptId
    userId := userId
    assessmentId := ss.assessmentId
    type := ty
    severity := sev }

/-- The session document after RecordEvent appended the event and added the
severity weight. -/
def recordedSession (ss : PSession) (userId : String) (ty : PEventType)
    (sev : Severity) (eid : String) : PSession :=
  { ss with
    events := ss.events ++ [recordedEvent ss userId ty sev eid]
    anomalyScore := dadd ss.anomalyScore (severityWeight sev) }

/-- The proctor state after a successful RecordEvent. -/
def recordedState (s : PState) (sessionId : String) (ss : PSession)
    (userId : String) (ty : PEventType) (sev : Severity) (eid : String) :
    PState :=
  { replaceSession s sessionId (recordedSession ss userId ty sev eid) with
    eventsDB := s.eventsDB ++ [recordedEvent ss userId ty sev eid] }

/-- The proctor state after recording one low-severity event on `psActive`. -/
def pstate2 : PState :=
  recordedState pstate1 ("ps1") psActive ("u1") PEventType.tabSwitch
    Severity.low ("ev1")

/-- C7 witness: starting a second session for the same pair fails, and a
concrete engine step (recording an event) preserves the uniqueness
invariant. -/
theorem c7_witness :
    startSession pstate1 ("at1") ("as1") ("u1") 5 ("ps2") =
      Except.error PError.sessionAlreadyActive ∧
    activeUnique pstate2 := by
  constructor
  · exact c7_active_unique.1 pstate1 ("at1") ("as1") ("u1") 5 ("ps2")
      ⟨psActive, by decide, by decide⟩
  · refine c7_active_unique.2 pstate1 pstate2 ?_ ?_
    · intro a u
      show ([psActive].filter (isActiveForPair a u)).length ≤ 1
      cases hp : isActiveForPair a u psActive with
      | false => rw [List.filter_cons_of_neg (by simp [hp]), List.filter_nil]; simp
      | true => rw [List.filter_cons_of_pos hp, List.filter_nil]; simp
    · exact PStep.record (show recordEvent pstate1 ("ps1") ("u1")
        PEventType.tabSwitch Severity.low ("ev1") = .ok (pstate2, "ev1") from rfl)

/-! ## C8: anomaly-score accumulation -/

/-- One successful RecordEvent: the session gains exactly one event and its
anomalyScore increases by the severity weight. -/
theorem recordEvent_step (s : PState) (sessionId userId : String)
    (ty : PEventType) (sev : Severity) (eid : String) (ss : PSession)
    (hss : findSession s sessionId = some ss)
    (huser : ss.userId = userId)
    (hactive : ss.status = .active) :
    recordEvent s sessionId userId ty sev eid =
      .ok (recordedState s sessionId ss userId ty sev eid, eid) ∧
    findSession (recordedState s sessionId ss userId ty sev eid) sessionId =
      some (recordedSession ss userId ty sev eid) := by
  have hsid : ss.sid = sessionId := findSession_sid hss
  have h2 : s.sessionsDB.find? (fun t => decide (t.sid = sessionId)) =
      some ss := hss
  constructor
  · rw [recordEvent, hss]
    simp [huser, hactive, recordedState, recordedSession, recordedEvent]
  · exact replaceFirst_find? PSession.sid (recordedSession ss userId ty sev eid)
      h2 hsid

/-- Unfolding `roundDouble` at a positive rational once its base-2 logarithm
and its scaled-to-53-bits value are known. -/
theorem roundDouble_eval (q s : ℚ) (L : ℤ) (k : ℕ)
    (hq : 0 < q) (hlog : Int.log 2 q = L) (hk : (52:ℤ) - L = (k:ℤ))
    (hs : q * 2 ^ k = s) :
    roundDouble q = (rne s : ℚ) * 2 ^ (L - 52) := by
  rw [roundDouble, if_neg hq.ne', if_pos hq, hlog, hk, zpow_natCast, hs]

theorem log_low_decimal : Int.log 2 (0.2:ℚ) = -3 :=
  int_log_eq (by norm_num) (by norm_num)

theorem log_low_w : Int.log 2 ((3602879701896397:ℚ) / 2 ^ 54) = -3 :=
  int_log_eq (by norm_num) (by norm_num)

theorem log_low_2w : Int.log 2 ((3602879701896397:ℚ) / 2 ^ 53) = -2 :=
  int_log_eq (by norm_num) (by norm_num)

theorem log_low_3w : Int.log 2 ((10808639105689191:ℚ) / 2 ^ 54) = -1 :=
  int_log_eq (by norm_num) (by norm_num)

/-- Scaled 0.2: the fraction 2^55/5 = 7205759403792793.6 rounds up. -/
theorem rne_low_scaled : rne ((36028797018963968:ℚ)/5) = 7205759403792794 := by
  have hfl : ⌊(36028797018963968:ℚ)/5⌋ = 7205759403792793 :=
    Int.floor_eq_iff.mpr (by norm_num)
  rw [rne, hfl, if_neg (by norm_num), if_pos (by norm_num)]
  norm_num

/-- An integer significand is left unchanged by rounding. -/
theorem rne_exact_scaled : rne (7205759403792794:ℚ) = 7205759403792794 := by
  have hfl : ⌊(7205759403792794:ℚ)⌋ = 7205759403792794 :=
    Int.floor_eq_iff.mpr (by norm_num)
  rw [rne, hfl, if_pos (by norm_num)]

/-- The tie case: 5404319552844595.5 rounds to the even 5404319552844596. -/
theorem rne_tie_scaled : rne ((10808639105689191:ℚ)/2) = 5404319552844596 := by
  have hfl : ⌊(10808639105689191:ℚ)/2⌋ = 5404319552844595 :=
    Int.floor_eq_iff.mpr (by norm_num)
  rw [rne, hfl, if_neg (by norm_num), if_neg (by norm_num), if_neg (by norm_num)]
  norm_num

/-- The double weight of a low event: the binary64 value of the literal 0.2
is 3602879701896397 / 2^54, slightly above 1/5. -/
theorem severityWeight_low_eq :
    severityWeight Severity.low = 3602879701896397 / 2 ^ 54 := by
  show roundDouble 0.2 = _
  rw [roundDouble_eval 0.2 (36028797018963968/5) (-3) 55 (by norm_num)
    log_low_decimal (by norm_num) (by norm_num), rne_low_scaled]
  rw [show ((-3:ℤ) - 52) = -((55:ℕ):ℤ) from by norm_num, zpow_neg, zpow_natCast]
  norm_num

/-- 0 + dbl(0.2) is exact. -/
theorem dadd_low_1 :
    dadd 0 (3602879701896397 / 2 ^ 54) = 3602879701896397 / 2 ^ 54 := by
  rw [dadd, show (0:ℚ) + 3602879701896397 / 2 ^ 54 = 3602879701896397 / 2 ^ 54
    from by norm_num]
  rw [roundDouble_eval (3602879701896397 / 2 ^ 54) 7205759403792794 (-3) 55
    (by norm_num) log_low_w (by norm_num) (by norm_num), rne_exact_scaled]
  rw [show ((-3:ℤ) - 52) = -((55:ℕ):ℤ) from by norm_num, zpow_neg, zpow_natCast]
  norm_num

/-- dbl(0.2) + dbl(0.2) is exact (the JavaScript 0.4). -/
theorem dadd_low_2 :
    dadd (3602879701896397 / 2 ^ 54) (3602879701896397 / 2 ^ 54) =
      3602879701896397 / 2 ^ 53 := by
  rw [dadd, show (3602879701896397:ℚ) / 2 ^ 54 + 3602879701896397 / 2 ^ 54 =
    3602879701896397 / 2 ^ 53 from by norm_num]
  rw [roundDouble_eval (3602879701896397 / 2 ^ 53) 7205759403792794 (-2) 54
    (by norm_num) log_low_2w (by norm_num) (by norm_num), rne_exact_scaled]
  rw [show ((-2:ℤ) - 52) = -((54:ℕ):ℤ) from by norm_num, zpow_neg, zpow_natCast]
  norm_num

/-- The third addition hits a tie and rounds up: the JavaScript
0.6000000000000001, one ulp above 0.6. -/
theorem dadd_low_3 :
    dadd (3602879701896397 / 2 ^ 53) (3602879701896397 / 2 ^ 54) =
      5404319552844596 / 2 ^ 53 := by
  rw [dadd, show (3602879701896397:ℚ) / 2 ^ 53 + 3602879701896397 / 2 ^ 54 =
    10808639105689191 / 2 ^ 54 from by norm_num]
  rw [roundDouble_eval (10808639105689191 / 2 ^ 54) (10808639105689191/2) (-1)
    53 (by norm_num) log_low_3w (by norm_num) (by norm_num), rne_tie_scaled]
  rw [show ((-1:ℤ) - 52) = -((53:ℕ):ℤ) from by norm_num, zpow_neg, zpow_natCast]
  norm_num

/-- Three low-severity events in sequence. -/
def c8lowEvs : List (PEventType × Severity × String) :=
  [(PEventType.tabSwitch, Severity.low, "e1"),
   (PEventType.tabSwitch, Severity.low, "e2"),
   (PEventType.tabSwitch, Severity.low, "e3")]

/-- The session after the first low event on `psActive`. -/
def psLow1 : PSession :=
  recordedSession psActive ("u1") PEventType.tabSwitch Severity.low ("e1")

/-- The session after the second low event. -/
def psLow2 : PSession :=
  recordedSession psLow1 ("u1") PEventType.tabSwitch Severity.low ("e2")

/-- The session after the third low event. -/
def psLow3 : PSession :=
  recordedSession psLow2 ("u1") PEventType.tabSwitch Severity.low ("e3")

/-- The proctor state after the first low event. -/
def pstLow1 : PState :=
  recordedState pstate1 ("ps1") psActive ("u1") PEventType.tabSwitch
    Severity.low ("e1")

/-- The proctor state after the second low event. -/
def pstLow2 : PState :=
  recordedState pstLow1 ("ps1") psLow1 ("u1") PEventType.tabSwitch
    Severity.low ("e2")

/-- The proctor state after the third low event. -/
def pstLow3 : PState :=
  recordedState pstLow2 ("ps1") psLow2 ("u1") PEventType.tabSwitch
    Severity.low ("e3")

/-- C8 counterexample: recording three low-severity events on a fresh active
session leaves anomalyScore = 5404319552844596 / 2^53 (the JavaScript
0.6000000000000001), which differs from the exact sum 0.2 + 0.2 + 0.2 = 0.6
of the claimed weights, and also from the exact sum of the binary64 weights
themselves: `+=` accumulates with IEEE-754 rounding at every step, so the
claimed exact-sum property fails. -/
theorem c8_counterexample :
    recordMany pstate1 ("ps1") ("u1") c8lowEvs = Except.ok pstLow3 ∧
    findSession pstLow3 ("ps1") = some psLow3 ∧
    psLow3.events.length = psActive.events.length + 3 ∧
    psLow3.anomalyScore = 5404319552844596 / 2 ^ 53 ∧
    psLow3.anomalyScore ≠ psActive.anomalyScore + ((0.2:ℚ) + 0.2 + 0.2) ∧
    psLow3.anomalyScore ≠ psActive.anomalyScore +
      (severityWeight Severity.low + severityWeight Severity.low +
        severityWeight Severity.low) := by
  have hscore : psLow3.anomalyScore = 5404319552844596 / 2 ^ 53 := by
    show dadd (dadd (dadd 0 (severityWeight Severity.low))
        (severityWeight Severity.low)) (severityWeight Severity.low) = _
    rw [severityWeight_low_eq, dadd_low_1, dadd_low_2, dadd_low_3]
  refine ⟨rfl, rfl, rfl, hscore, ?_, ?_⟩
  · rw [hscore]
    show (5404319552844596:ℚ) / 2 ^ 53 ≠ 0 + ((0.2:ℚ) + 0.2 + 0.2)
    norm_num
  · rw [hscore, severityWeight_low_eq]
    show (5404319552844596:ℚ) / 2 ^ 53 ≠ 0 +
      ((3602879701896397:ℚ) / 2 ^ 54 + 3602879701896397 / 2 ^ 54 +
        3602879701896397 / 2 ^ 54)
    norm_num

/-- C8 (amended): on an active session owned by the caller whose anomalyScore
is a nonnegative binary64 value, any sequence of N recorded events succeeds,
appends exactly N events, and leaves the anomalyScore equal to the binary64
left-to-right accumulation (`dadd`, addition rounded to nearest-even at 53
bits) of the double severity weights onto the initial score; the score never
decreases. The exact-sum form of the claim fails under this rounding. -/
theorem c8_amended_double_accumulation
    (evs : List (PEventType × Severity × String))
    (s : PState) (sessionId userId : String) (ss : PSession)
    (hss : findSession s sessionId = some ss)
    (huser : ss.userId = userId)
    (hactive : ss.status = .active)
    (hrepr : dblRepr ss.anomalyScore)
    (hnn : 0 ≤ ss.anomalyScore) :
    ∃ s2, recordMany s sessionId userId evs = .ok s2 ∧
      ∃ ss2, findSession s2 sessionId = some ss2 ∧
        ss2.anomalyScore =
          (evs.map (fun e => severityWeight e.2.1)).foldl dadd
            ss.anomalyScore ∧
        ss2.events.length = ss.events.length + evs.length ∧
        ss.anomalyScore ≤ ss2.anomalyScore := by
  induction evs generalizing s ss with
  | nil =>
    exact ⟨s, rfl, ss, hss, by simp, by simp, le_refl _⟩
  | cons e rest ih =>
    obtain ⟨hstep, hfind1⟩ :=
      recordEvent_step s sessionId userId e.1 e.2.1 e.2.2 ss hss huser hactive
    have hrepr2 :
        dblRepr (recordedSession ss userId e.1 e.2.1 e.2.2).anomalyScore := by
      show dblRepr (dadd ss.anomalyScore (severityWeight e.2.1))
      exact dblRepr_dadd hnn (severityWeight_nonneg e.2.1)
    have hnn2 :
        0 ≤ (recordedSession ss userId e.1 e.2.1 e.2.2).anomalyScore := by
      show (0:ℚ) ≤ dadd ss.anomalyScore (severityWeight e.2.1)
      exact dadd_nonneg hnn (severityWeight_nonneg e.2.1)
    obtain ⟨s2, hrest, ss2, hfind2, hscore, hlen, hmono⟩ :=
      ih (recordedState s sessionId ss userId e.1 e.2.1 e.2.2)
        (recordedSession ss userId e.1 e.2.1 e.2.2) hfind1 huser hactive
        hrepr2 hnn2
    refine ⟨s2, ?_, ss2, hfind2, ?_, ?_, ?_⟩
    · simp only [recordMany]
      rw [hstep]
      exact hrest
    · rw [hscore]
      simp only [recordedSession, List.map_cons, List.foldl_cons]
    · rw [hlen]
      simp only [recordedSession, List.length_append, List.length_cons,
        List.length_nil]
      omega
    · refine le_trans ?_ hmono
      show ss.anomalyScore ≤ dadd ss.anomalyScore (severityWeight e.2.1)
      exact le_dadd_of_repr hrepr hnn (severityWeight_nonneg e.2.1)

/-- A concrete sequence of two proctor events: one low, one high severity. -/
def c8evs : List (PEventType × Severity × String) :=
  [(PEventType.tabSwitch, Severity.low, "ev1"),
   (PEventType.multipleFaces, Severity.high, "ev2")]

/-- C8 amended witness: the theorem at the active session `psActive` with a
low-severity and a high-severity event. -/
theorem c8_amended_witness :
    ∃ s2, recordMany pstate1 ("ps1") ("u1") c8evs = .ok s2 ∧
      ∃ ss2, findSession s2 ("ps1") = some ss2 ∧
        ss2.anomalyScore =
          (c8evs.map (fun e => severityWeight e.2.1)).foldl dadd
            psActive.anomalyScore ∧
        ss2.events.length = psActive.events.length + c8evs.length ∧
        psActive.anomalyScore ≤ ss2.anomalyScore :=
  c8_amended_double_accumulation c8evs pstate1 ("ps1") ("u1") psActive
    (by decide) (by decide) (by decide)
    ⟨0, 0, by norm_num, by norm_num [psActive]⟩ (by norm_num [psActive])

/-! ## C1: totalScore can exceed maxPossibleScore -/

/-- A catalog question worth 5 points (correct option `a`). -/
def qC : Question :=
  { qid := "q3"
    type := QType.singleChoice
    options := [{ id := "a", isCorrect := true }]
    points := 5 }

/-- A published assessment that references `qC` with a per-assessment points
override of 1, so totalPoints = 1 while the catalog question is worth 5. -/
def assessC : Assessment :=
  { aid := "as5"
    duration := 10
    totalPoints := 1
    passingScore := 0
    questions := [{ question := "q3", points := some 1 }]
    allowedAttempts := 1
    status := AStatus.published }

/-- The initial state for the C1 run. -/
def stateC0 : AState := { questionsDB := [qC], assessmentsDB := [assessC] }

/-- The attempt StartAttempt creates in the C1 run (maxPossibleScore = 1). -/
def attC1 : Attempt :=
  { aid := "at7"
    assessment := "as5"
    user := "u1"
    startTime := 0
    answers := [{ question := "q3", points := 0 }]
    maxPossibleScore := 1
    status := .inProgress }

/-- The state after StartAttempt in the C1 run. -/
def stateC1 : AState :=
  { questionsDB := [qC]
    assessmentsDB := [assessC]
    attemptsDB := [attC1]
    redisKeys := ["attempt_at7"] }

/-- The attempt after the correct answer was graded with the catalog points
(5), exceeding the attempt's maxPossibleScore of 1. -/
def attC2 : Attempt :=
  { aid := "at7"
    assessment := "as5"
    user := "u1"
    startTime := 0
    answers := [{ question := "q3", answer := some (AnswerValue.str ("a")),
                  isCorrect := some true, points := 5, timeSpent := some 1 }]
    maxPossibleScore := 1
    status := .inProgress }

/-- The state after SubmitAnswer in the C1 run. -/
def stateC2 : AState :=
  { questionsDB := [qC]
    assessmentsDB := [assessC]
    attemptsDB := [attC2]
    redisKeys := ["attempt_at7"] }

/-- C1 counterexample: a full StartAttempt → SubmitAnswer → FinishAttempt run
in which grading awards the catalog question points (5) while
maxPossibleScore snapshots the sum of the per-assessment overrides (1), so
the finalized totalScore (5) exceeds maxPossibleScore (1). -/
theorem c1_counterexample :
    startAttempt (fun l => l) stateC0 ("as5") ("u1") 0 ("at7") =
      Except.ok (stateC1, attC1) ∧
    submitAnswer stateC1 ("at7") ("u1") ("q3") (AnswerValue.str ("a")) 1000 =
      (none, stateC2) ∧
    finishAttempt stateC2 ("at7") ("u1") 2000 =
      (none, finishedState stateC2 ("at7") attC2 2000,
        some (finishedResult attC2 assessC 2000)) ∧
    (finishedResult attC2 assessC 2000).totalScore = 5 ∧
    (finishedResult attC2 assessC 2000).maxPossibleScore = 1 ∧
    ¬ (finishedResult attC2 assessC 2000).totalScore ≤
        (finishedResult attC2 assessC 2000).maxPossibleScore := by
  have htot : (finishedResult attC2 assessC 2000).totalScore = 5 := by
    show sumSlotPoints attC2.answers = 5
    norm_num [sumSlotPoints, attC2]
  refine ⟨by decide, by decide, ?_, htot, rfl, ?_⟩
  · exact finishAttempt_eq stateC2 ("at7") ("u1") 2000 attC2 assessC
      (by decide) (by decide) (by decide) (by decide)
  · rw [htot]
    show ¬ (5 : ℚ) ≤ attC2.maxPossibleScore
    norm_num [attC2]

/-- The catalog points of a question id in a question collection (0 when the
id does not resolve; grading can never award points in that case because
SubmitAnswer faults before saving). -/
def catPts (db : List Question) (qid : String) : ℚ :=
  match db.find? (fun q => decide (q.qid = qid)) with
  | some q => q.points
  | none => 0

/-- A sequence of SubmitAnswer calls (questionId, answer, time) against one
attempt, keeping the state of each call whether it succeeds or fails. -/
def runSubmits (s : AState) (attemptId userId : String)
    (subs : List (String × AnswerValue × ℕ)) : AState :=
  match subs with
  | [] => s
  | e :: rest =>
      runSubmits (submitAnswer s attemptId userId e.1 e.2.1 e.2.2).2
        attemptId userId rest

/-- The attempt document StartAttempt creates. -/
def startedAttempt (shuffle : List AssessmentQuestion → List AssessmentQuestion)
    (a : Assessment) (asid uid : String) (now : ℕ) (nid : String) : Attempt :=
  { aid := nid
    assessment := asid
    user := uid
    startTime := now
    answers := (if a.randomizeQuestions then shuffle a.questions
                else a.questions).map (fun q => { question := q.question, points := 0 })
    maxPossibleScore := a.totalPoints
    status := .inProgress }

/-- The service state after a successful StartAttempt. -/
def startedState (shuffle : List AssessmentQuestion → List AssessmentQuestion)
    (s : AState) (a : Assessment) (asid uid : String) (now : ℕ) (nid : String) :
    AState :=
  { s with
    attemptsDB := s.attemptsDB ++ [startedAttempt shuffle a asid uid now nid]
    redisKeys := s.redisKeys ++ ["attempt_" ++ nid] }

/-- Inversion of a successful StartAttempt. -/
theorem startAttempt_ok_inversion
    (shuffle : List AssessmentQuestion → List AssessmentQuestion)
    (s : AState) (asid uid : String) (now : ℕ) (nid : String)
    (a : Assessment) (s1 : AState) (att0 : Attempt)
    (hfind : findAssessment s asid = some a)
    (h : startAttempt shuffle s asid uid now nid = .ok (s1, att0)) :
    att0 = startedAttempt shuffle a asid uid now nid ∧
    s1 = startedState shuffle s a asid uid now nid := by
  rw [startAttempt, hfind] at h
  split at h
  next => cases h
  next x a2 heq =>
    injection heq with heq2
    subst heq2
    split at h
    · cases h
    · split at h
      · cases h
      · split at h
        · cases h
        · split at h
          · cases h
          · injection h with h1
            rw [Prod.mk.injEq] at h1
            exact ⟨h1.2.symm, h1.1.symm⟩

/-- Inversion of a successful FinishAttempt: the returned totalScore is the
sum of the stored attempt's slot points and the returned maxPossibleScore is
the stored attempt's snapshot. -/
theorem finishAttempt_ok_inversion
    (s : AState) (attemptId userId : String) (now : ℕ)
    (s3 : AState) (res : FinishResult)
    (h : finishAttempt s attemptId userId now = (none, s3, some res)) :
    ∃ att, findAttempt s attemptId = some att ∧
      res.totalScore = sumSlotPoints att.answers ∧
      res.maxPossibleScore = att.maxPossibleScore := by
  cases hatt : findAttempt s attemptId with
  | none =>
    rw [finishAttempt, hatt] at h
    simp at h
  | some att =>
    by_cases huser : att.user = userId
    · by_cases hstat : att.status = .inProgress
      · cases hass : findAssessment s att.assessment with
        | none =>
          have he : (finishAttempt s attemptId userId now).2.2 = none := by
            rw [finishAttempt, hatt]
            simp only [huser, hstat, ne_eq, not_true_eq_false, if_false,
              reduceCtorEq, ite_false, findAssessment_setRedis,
              findAssessment_replaceAttempt, hass]
          rw [h] at he
          simp at he
        | some a =>
          have he := finishAttempt_eq s attemptId userId now att a hatt huser
            hstat hass
          rw [he] at h
          simp only [Prod.mk.injEq, Option.some.injEq] at h
          obtain ⟨-, hres⟩ := h
          exact ⟨att, rfl, by rw [← hres.2]; rfl, by rw [← hres.2]; rfl⟩
      · have he : (finishAttempt s attemptId userId now).1 =
            some .alreadyFinalized := by
          rw [finishAttempt, hatt]
          simp [huser, hstat]
        rw [h] at he
        simp at he
    · have he : (finishAttempt s attemptId userId now).1 = some .forbidden := by
        rw [finishAttempt, hatt]
        simp [huser]
      rw [h] at he
      simp at he

/-- The reachability invariant for one attempt: the question catalog and
assessment store are unchanged, the attempt exists, its maxPossibleScore
snapshot and its slot question list are fixed, and every slot's points are
bounded by the catalog points of its question. -/
def attemptInv (QDB : List Question) (ADB : List Assessment) (mps : ℚ)
    (qids : List String) (s : AState) (attemptId : String) : Prop :=
  s.questionsDB = QDB ∧ s.assessmentsDB = ADB ∧
  ∃ att, findAttempt s attemptId = some att ∧
    att.maxPossibleScore = mps ∧
    att.answers.map AnswerSlot.question = qids ∧
    ∀ sl ∈ att.answers, sl.points ≤ max (catPts QDB sl.question) 0

theorem findAttempt_replace_self (s : AState) (attemptId : String)
    (att b : Attempt) (hatt : findAttempt s attemptId = some att)
    (hb : b.aid = att.aid) :
    findAttempt (replaceAttempt s attemptId b) attemptId = some b := by
  have h2 : s.attemptsDB.find? (fun t => decide (t.aid = attemptId)) =
      some att := hatt
  exact replaceFirst_find? Attempt.aid b h2 (findAttempt_aid hatt ▸ hb)

theorem submitAnswer_preserves_inv
    (QDB : List Question) (ADB : List Assessment) (mps : ℚ) (qids : List String)
    (s : AState) (attemptId userId qid : String) (ans : AnswerValue) (now : ℕ)
    (h : attemptInv QDB ADB mps qids s attemptId) :
    attemptInv QDB ADB mps qids
      (submitAnswer s attemptId userId qid ans now).2 attemptId := by
  obtain ⟨hQ, hA, att, hatt, hmps, hmap, hbnd⟩ := h
  rw [submitAnswer, hatt]
  simp only []
  by_cases huser : att.user = userId
  · rw [if_neg (by simp [huser])]
    by_cases hstat : att.status = .inProgress
    · rw [if_neg (by simp [hstat])]
      cases hass : findAssessment s att.assessment with
      | none =>
        exact ⟨hQ, hA, att, hatt, hmps, hmap, hbnd⟩
      | some a =>
        simp only []
        by_cases htime : now > att.startTime + a.duration * 60000
        · rw [if_pos htime]
          exact ⟨hQ, hA, _,
            findAttempt_replace_self s attemptId att _ hatt rfl,
            hmps, hmap, hbnd⟩
        · rw [if_neg htime]
          by_cases hunk : att.answers.all
              (fun sl => decide (sl.question ≠ qid)) = true
          · rw [if_pos hunk]
            exact ⟨hQ, hA, att, hatt, hmps, hmap, hbnd⟩
          · rw [if_neg hunk]
            cases hq : findQuestion s qid with
            | none =>
              exact ⟨hQ, hA, att, hatt, hmps, hmap, hbnd⟩
            | some q =>
              simp only []
              have hcat : catPts QDB qid = q.points := by
                have hq2 : QDB.find? (fun x => decide (x.qid = qid)) = some q := by
                  rw [← hQ]
                  exact hq
                rw [catPts, hq2]
              refine ⟨hQ, hA, _,
                findAttempt_replace_self s attemptId att _ hatt rfl,
                hmps, ?_, ?_⟩
              · show (updateSlot att.answers qid _).map AnswerSlot.question = qids
                rw [updateSlot_map_question]
                · exact hmap
                · intro sl
                  by_cases h1 : q.type = QType.multipleChoice
                  · rw [if_pos h1]
                  · rw [if_neg h1]
                    by_cases h2 : q.type = QType.singleChoice ∨
                        q.type = QType.trueFalse
                    · rw [if_pos h2]
                    · rw [if_neg h2]
              · intro sl2 hmem
                rcases updateSlot_mem att.answers qid _ sl2 hmem with
                  hin | ⟨sl, hslmem, hquestion, rfl⟩
                · exact hbnd sl2 hin
                · by_cases h1 : q.type = QType.multipleChoice
                  · rw [if_pos h1]
                    show (if gradeMultipleChoice q ans then q.points else 0) ≤
                      max (catPts QDB sl.question) 0
                    rw [hquestion, hcat]
                    split
                    · exact le_max_left _ _
                    · exact le_max_right _ _
                  · rw [if_neg h1]
                    by_cases h2 : q.type = QType.singleChoice ∨
                        q.type = QType.trueFalse
                    · rw [if_pos h2]
                      show (if gradeSingleChoice q ans then q.points else 0) ≤
                        max (catPts QDB sl.question) 0
                      rw [hquestion, hcat]
                      split
                      · exact le_max_left _ _
                      · exact le_max_right _ _
                    · rw [if_neg h2]
                      show sl.points ≤ max (catPts QDB sl.question) 0
                      exact hbnd sl hslmem
    · rw [if_pos (by simp [hstat])]
      exact ⟨hQ, hA, att, hatt, hmps, hmap, hbnd⟩
  · rw [if_pos huser]
    exact ⟨hQ, hA, att, hatt, hmps, hmap, hbnd⟩

theorem runSubmits_preserves_inv
    (QDB : List Question) (ADB : List Assessment) (mps : ℚ) (qids : List String)
    (attemptId userId : String) (subs : List (String × AnswerValue × ℕ))
    (s : AState) (h : attemptInv QDB ADB mps qids s attemptId) :
    attemptInv QDB ADB mps qids (runSubmits s attemptId userId subs) attemptId := by
  induction subs generalizing s with
  | nil => exact h
  | cons e rest ih =>
    simp only [runSubmits]
    exact ih _ (submitAnswer_preserves_inv QDB ADB mps qids s attemptId userId
      e.1 e.2.1 e.2.2 h)

/-- C1 amended: totalScore ≤ maxPossibleScore holds for every attempt run
(StartAttempt, any sequence of SubmitAnswer calls, FinishAttempt) provided
that, for every question of the assessment, the catalog points of the
question are at most the per-assessment points override (and the overrides
are nonnegative) — the condition the code silently assumes, since grading
awards question.points from the catalog while maxPossibleScore snapshots the
sum of the overrides.  Without that hypothesis the claim is false
(see the counterexample). -/
theorem c1_amended_totalScore_le_max
    (shuffle : List AssessmentQuestion → List AssessmentQuestion)
    (s0 : AState) (asid uid : String) (now0 : ℕ) (nid : String)
    (a : Assessment) (s1 : AState) (att0 : Attempt)
    (subs : List (String × AnswerValue × ℕ)) (nowF : ℕ)
    (s3 : AState) (res : FinishResult)
    (hfind : findAssessment s0 asid = some a)
    (htot : a.totalPoints = computeTotalPoints a.questions)
    (hperm : (if a.randomizeQuestions then shuffle a.questions
              else a.questions).Perm a.questions)
    (hbound : ∀ e ∈ a.questions,
      catPts s0.questionsDB e.question ≤ e.points.getD 0 ∧ 0 ≤ e.points.getD 0)
    (hfresh : ∀ t ∈ s0.attemptsDB, t.aid ≠ nid)
    (hstart : startAttempt shuffle s0 asid uid now0 nid = .ok (s1, att0))
    (hfin : finishAttempt (runSubmits s1 nid uid subs) nid uid nowF =
      (none, s3, some res)) :
    res.totalScore ≤ res.maxPossibleScore := by
  obtain ⟨ha0, hs1⟩ := startAttempt_ok_inversion shuffle s0 asid uid now0 nid
    a s1 att0 hfind hstart
  subst hs1
  have hinv1 : attemptInv s0.questionsDB s0.assessmentsDB a.totalPoints
      ((if a.randomizeQuestions then shuffle a.questions
        else a.questions).map AssessmentQuestion.question)
      (startedState shuffle s0 a asid uid now0 nid) nid := by
    refine ⟨rfl, rfl, startedAttempt shuffle a asid uid now0 nid, ?_, rfl, ?_, ?_⟩
    · show (s0.attemptsDB ++ [startedAttempt shuffle a asid uid now0 nid]).find?
        (fun t => decide (t.aid = nid)) =
        some (startedAttempt shuffle a asid uid now0 nid)
      rw [find?_append_none _ (List.find?_eq_none.mpr (fun x hx => by
        simp [hfresh x hx]))]
      exact List.find?_cons_of_pos _ (by simp [startedAttempt])
    · show (((if a.randomizeQuestions then shuffle a.questions
          else a.questions).map
          (fun q => ({ question := q.question, points := 0 } : AnswerSlot))).map
          AnswerSlot.question) = _
      rw [List.map_map]
      rfl
    · intro sl hsl
      have hsl2 : sl ∈ ((if a.randomizeQuestions then shuffle a.questions
          else a.questions).map
          (fun q => ({ question := q.question, points := 0 } : AnswerSlot))) := hsl
      obtain ⟨qe, hqe, rfl⟩ := List.mem_map.mp hsl2
      show (0 : ℚ) ≤ max (catPts s0.questionsDB qe.question) 0
      exact le_max_right _ _
  have hinv2 := runSubmits_preserves_inv s0.questionsDB s0.assessmentsDB
    a.totalPoints
    ((if a.randomizeQuestions then shuffle a.questions
      else a.questions).map AssessmentQuestion.question) nid uid subs _ hinv1
  obtain ⟨hQ2, hA2, att2, hatt2, hmps2, hmap2, hbnd2⟩ := hinv2
  obtain ⟨attF, hattF, hts, hmx⟩ := finishAttempt_ok_inversion _ nid uid nowF
    s3 res hfin
  have hsame : attF = att2 := Option.some.inj (hattF.symm.trans hatt2)
  subst hsame
  rw [hts, hmx, hmps2, sumSlotPoints_eq]
  calc (attF.answers.map AnswerSlot.points).sum
      ≤ (attF.answers.map
          (fun sl => max (catPts s0.questionsDB sl.question) 0)).sum :=
        List.sum_le_sum hbnd2
    _ = ((attF.answers.map AnswerSlot.question).map
          (fun x => max (catPts s0.questionsDB x) 0)).sum := by
        rw [List.map_map]
        rfl
    _ = (((if a.randomizeQuestions then shuffle a.questions
          else a.questions).map AssessmentQuestion.question).map
          (fun x => max (catPts s0.questionsDB x) 0)).sum := by
        rw [hmap2]
    _ = ((if a.randomizeQuestions then shuffle a.questions
          else a.questions).map
          (fun e => max (catPts s0.questionsDB e.question) 0)).sum := by
        rw [List.map_map]
        rfl
    _ ≤ ((if a.randomizeQuestions then shuffle a.questions
          else a.questions).map (fun e => e.points.getD 0)).sum :=
        List.sum_le_sum (fun e he =>
          max_le (hbound e (hperm.subset he)).1 (hbound e (hperm.subset he)).2)
    _ = (a.questions.map (fun e => e.points.getD 0)).sum :=
        (hperm.map _).sum_eq
    _ = computeTotalPoints a.questions := (computeTotalPoints_eq a.questions).symm
    _ = a.totalPoints := htot.symm

/-- The state for the C1 witness run: `qS` (catalog points 5) and `assess1`
(override points 5), no attempts yet. -/
def stateS0 : AState := { questionsDB := [qS], assessmentsDB := [assess1] }

/-- The single submission of the C1 witness run. -/
def subsW : List (String × AnswerValue × ℕ) := [("q1", AnswerValue.str ("a"), 1000)]

/-- The attempt of the C1 witness run after the correct answer was graded. -/
def attW : Attempt :=
  { aid := "at8"
    assessment := "as1"
    user := "u1"
    startTime := 0
    answers := [{ question := "q1", answer := some (AnswerValue.str ("a")),
                  isCorrect := some true, points := 5, timeSpent := some 1 }]
    maxPossibleScore := 5
    status := .inProgress }

/-- The state of the C1 witness run after the submission. -/
def stateW2 : AState :=
  { questionsDB := [qS]
    assessmentsDB := [assess1]
    attemptsDB := [attW]
    redisKeys := ["attempt_at8"] }

/-- C1 witness: the amended theorem at a concrete run in which the catalog
points equal the override points, so the finalized totalScore (5) is within
maxPossibleScore (5). -/
theorem c1_amended_witness :
    (finishedResult attW assess1 2000).totalScore ≤
      (finishedResult attW assess1 2000).maxPossibleScore := by
  have hrun : runSubmits (startedState (fun l => l) stateS0 assess1 ("as1")
      ("u1") 0 ("at8")) ("at8") ("u1") subsW = stateW2 := by decide
  refine c1_amended_totalScore_le_max (fun l => l) stateS0 ("as1") ("u1") 0
    ("at8") assess1
    (startedState (fun l => l) stateS0 assess1 ("as1") ("u1") 0 ("at8"))
    (startedAttempt (fun l => l) assess1 ("as1") ("u1") 0 ("at8")) subsW 2000
    (finishedState stateW2 ("at8") attW 2000) (finishedResult attW assess1 2000)
    (by decide) ?_ (by simp [assess1]) (by decide) (by decide) (by decide) ?_
  · show assess1.totalPoints = computeTotalPoints assess1.questions
    norm_num [computeTotalPoints, assess1]
  · rw [hrun]
    exact finishAttempt_eq stateW2 ("at8") ("u1") 2000 attW assess1
      (by decide) (by decide) (by decide) (by decide)
